import Mathlib

/-
  Shallow embedding of the property dependency and derived-value engine of the
  Anonymizer repository (file `anonymizer/datasource/managers.py`).

  Python values flowing through the engine are modelled by `Value` (strings and
  integers; the float fallback of the numeric coercion in `Property.matches` is
  not modelled, no claim depends on it).  Python exceptions are modelled by the
  `PyErr` error type together with `Except`:
    * `PyErr.index`    — IndexError (indexing an empty string / short row),
    * `PyErr.key k`    — KeyError on a dict lookup,
    * `PyErr.attr`     — AttributeError (attribute access on None),
    * `PyErr.fuel`     — the recursion budget of `get_dependencies` ran out;
                          the Python source recurses without any bound, so a
                          computation that exhausts every budget models a
                          computation that never returns normally,
  plus the exception classes raised explicitly by the source.
  Records (Python dicts) are association lists with insert-or-replace update.
-/

namespace Anon

inductive Value where
  | str (s : String)
  | int (n : Int)
  deriving DecidableEq, Repr

inductive PyErr where
  | index
  | key (k : String)
  | attr
  | fuel
  | providerNotFound (s : String)
  | providerMethodNotFound (s : String)
  | connectionNotFound (s : String)
  | propertyNotFound (s : String)
  | unknownOperator (s : String)
  | valueError (s : String)
  deriving DecidableEq, Repr

/- `str(x)` of the Python source. -/
def pyStr : Value → String
  | .str s => s
  | .int n => toString n

/- Python 2 `==` on the scalar values we model: cross-type comparison is False. -/
def pyEq : Value → Value → Bool
  | .str a, .str b => a == b
  | .int a, .int b => a == b
  | _, _ => false

/- Lexicographic order on character codes, as Python compares strings. -/
def strLtL : List Char → List Char → Bool
  | [], [] => false
  | [], _ :: _ => true
  | _ :: _, [] => false
  | a :: as, b :: bs =>
    if a.toNat < b.toNat then true
    else if b.toNat < a.toNat then false
    else strLtL as bs

/- Python 2 `<`: numbers compare smaller than strings (by type), same types
   compare by value. -/
def pyLt : Value → Value → Bool
  | .int a, .int b => a < b
  | .str a, .str b => strLtL a.data b.data
  | .int _, .str _ => true
  | .str _, .int _ => false

/- Records: the name-to-value dict built per row. -/
abbrev Record := List (String × Value)

def rlookup : Record → String → Option Value
  | [], _ => none
  | (k, v) :: rest, n => if k = n then some v else rlookup rest n

/- Python dict assignment: replace in place if the key exists, else append. -/
def rinsert : Record → String → Value → Record
  | [], n, v => [(n, v)]
  | (k, w) :: rest, n, v => if k = n then (n, v) :: rest else (k, w) :: rinsert rest n v

/- The `for ... if cond: append` filtering loop over records, in `Except`. -/
def filterE : List Record → (Record → Except PyErr Bool) → Except PyErr (List Record)
  | [], _ => pure []
  | r :: rest, p => do
    let b ← p r
    let tail ← filterE rest p
    pure (if b then r :: tail else tail)

/- `re.split('[chars]', s)[0]`: the longest prefix without any of the chars. -/
def takeUntil (bad : List Char) : List Char → List Char
  | [] => []
  | c :: cs => if bad.contains c then [] else c :: takeUntil bad cs

def reSplitHead (bad : List Char) (s : String) : String :=
  String.mk (takeUntil bad s.data)

/- Python `s.split(sep)` for a single-character separator. -/
def splitC (sep : Char) : List Char → List (List Char)
  | [] => [[]]
  | c :: cs =>
    match splitC sep cs with
    | [] => [[]]
    | f :: rest => if c = sep then [] :: f :: rest else (c :: f) :: rest

def pySplit (sep : Char) (s : String) : List String :=
  (splitC sep s.data).map String.mk

/- Python `s[:-1]`. -/
def pyDropLast (s : String) : String := String.mk s.data.dropLast

/- Quote stripping of `Property.matches`: the chained comparison
   `(x[0] == x[-1] == QUOTE)`, raising IndexError on the empty string.
   Character 34 is the double quote, character 39 the single quote. -/
def stripQuotesL : List Char → Except PyErr (List Char)
  | [] => Except.error PyErr.index
  | c :: cs =>
    let d := (c :: cs).getLast?.getD c
    if c = d && (c.toNat == 34 || c.toNat == 39) then pure cs.dropLast
    else pure (c :: cs)

/- The operator/operand scanning loop of `Property.matches`. -/
def scanOp : List Char → String → String → String × String
  | [], op, exp => (op, exp)
  | c :: cs, op, exp =>
    if exp = "" then
      if ['=', '<', '>', '!'].contains c then scanOp cs (op.push c) exp
      else scanOp cs op (String.mk [c])
    else scanOp cs op (exp.push c)

/- `csv.reader([s], delimiter=',')`: comma split honouring double quotes
   (doubled-quote escapes inside a quoted field are not modelled; no claim
   depends on them).  The reader yields no fields for the empty line. -/
def csvFields : List Char → Bool → List Char → List String → List String
  | [], _, cur, acc => acc ++ [String.mk cur]
  | c :: rest, inQ, cur, acc =>
    if c.toNat = 34 then csvFields rest (!inQ) cur acc
    else if c.toNat = 44 && !inQ then csvFields rest inQ [] (acc ++ [String.mk cur])
    else csvFields rest inQ (cur ++ [c]) acc

def csvSplit (s : String) : List String :=
  if s = "" then [] else csvFields s.data false [] []

/- Number of occurrences of a pattern in a character list. -/
def countOcc (pat : List Char) : List Char → Nat
  | [] => 0
  | c :: cs => (if pat.isPrefixOf (c :: cs) then 1 else 0) + countOcc pat cs

/-
  `Property` (class `Property` of the source).  Lean structures cannot be
  recursive, so the class is an inductive with one constructor; `user_fk` is
  the nested `Property` built for a foreign-key source (itself always built
  with `user_fk=None`).  The provider method `fn` is an external capability
  (spec section 6) and is carried as a function value; it is only meaningful
  on generated properties.  Field order:
  source, table, column, aggregate, filter_by, is_pk, name, label, tp,
  connection, user_fk, fn, fn_args.
-/
inductive Property where
  | mk (source table column : String) (aggregate : Option String)
      (filter_by is_pk : Bool) (name label tp : String)
      (connection : Option String) (user_fk : Option Property)
      (fn : List Value → Value) (fn_args : List String)

def Property.source : Property → String
  | ⟨s, _, _, _, _, _, _, _, _, _, _, _, _⟩ => s

def Property.table : Property → String
  | ⟨_, t, _, _, _, _, _, _, _, _, _, _, _⟩ => t

def Property.column : Property → String
  | ⟨_, _, c, _, _, _, _, _, _, _, _, _, _⟩ => c

def Property.aggregate : Property → Option String
  | ⟨_, _, _, a, _, _, _, _, _, _, _, _, _⟩ => a

def Property.filter_by : Property → Bool
  | ⟨_, _, _, _, f, _, _, _, _, _, _, _, _⟩ => f

def Property.is_pk : Property → Bool
  | ⟨_, _, _, _, _, p, _, _, _, _, _, _, _⟩ => p

def Property.name : Property → String
  | ⟨_, _, _, _, _, _, n, _, _, _, _, _, _⟩ => n

def Property.label : Property → String
  | ⟨_, _, _, _, _, _, _, l, _, _, _, _, _⟩ => l

def Property.tp : Property → String
  | ⟨_, _, _, _, _, _, _, _, t, _, _, _, _⟩ => t

def Property.connection : Property → Option String
  | ⟨_, _, _, _, _, _, _, _, _, c, _, _, _⟩ => c

def Property.user_fk : Property → Option Property
  | ⟨_, _, _, _, _, _, _, _, _, _, fk, _, _⟩ => fk

def Property.fn : Property → (List Value → Value)
  | ⟨_, _, _, _, _, _, _, _, _, _, _, f, _⟩ => f

def Property.fn_args : Property → List String
  | ⟨_, _, _, _, _, _, _, _, _, _, _, _, a⟩ => a

/- `Property.is_generated`: `self.source[0] in ['^']`.  (Every property the
   source builds has a non-empty source string; on the empty string the
   source would raise IndexError, here the head is simply absent.) -/
def Property.is_generated (p : Property) : Bool :=
  match p.source.data with
  | c :: _ => c = '^'
  | [] => false

/- `Property.full`. -/
def Property.full (p : Property) : String :=
  let result := p.table ++ "." ++ p.column
  match p.aggregate with
  | some a => a ++ "(" ++ result ++ ")"
  | none => result

/- `Property.matches`: checks one value against a filter expression. -/
def Property.matches (p : Property) (val0 : Value) (filter_exp : String) :
    Except PyErr Bool := do
  let f_name := reSplitHead ['=', '!', '<', '>'] filter_exp
  let st := scanOp (filter_exp.data.drop f_name.length) "" ""
  let operator := st.1
  -- remove quotes (from the value only when it is a string)
  let val ← match val0 with
    | Value.str s => do
        let l ← stripQuotesL s.data
        pure (Value.str (String.mk l))
    | v => pure v
  let expL ← stripQuotesL st.2.data
  let exp := Value.str (String.mk expL)
  let ve ←
    if "scalar".data.isPrefixOf (p.tp.data.map Char.toLower) then do
      match (pySplit '(' p.tp).get? 1 with
      | none => Except.error PyErr.index
      | some inner => do
        let ranges := pySplit ',' (pyDropLast inner)
        let ve0 := ranges.enum.foldl
          (fun (acc : Value × Value) (ir : Nat × String) =>
            let r_arr := pySplit '=' ir.2
            let r_arr := if r_arr.length = 1 then r_arr ++ r_arr else r_arr
            let v := if vIn acc.1 r_arr then Value.int (ir.1 : Int) else acc.1
            let e := if vIn acc.2 r_arr then Value.int (ir.1 : Int) else acc.2
            (v, e)) (val, exp)
        match ve0.1 with
        | Value.int a =>
          match ve0.2 with
          | Value.int b => pure (Value.int a, Value.int b)
          | e => Except.error (PyErr.valueError (pyStr e))
        | v => Except.error (PyErr.valueError (pyStr v))
    else
      -- read the operand as a number if possible (the float fallback of the
      -- source is not modelled)
      let exp := match exp with
        | Value.str s =>
          match s.toInt? with
          | some n => Value.int n
          | none => Value.str s
        | v => v
      pure (val, exp)
  let val := ve.1
  let exp := ve.2
  match operator with
  | "=" => pure (pyEq val exp)
  | "!=" => pure (!pyEq val exp)
  | ">" => pure (pyLt exp val)
  | ">=" => pure (!pyLt val exp)
  | "<" => pure (pyLt val exp)
  | "<=" => pure (!pyLt exp val)
  | op => Except.error (PyErr.unknownOperator op)
where
  /- Python `x in r_arr` for a list of strings: an int never matches. -/
  vIn : Value → List String → Bool
    | .str s, l => l.contains s
    | _, _ => false

/-
  `PropertyManager`.  The constructor stores the primary-key property first in
  `self.properties`; the manager token is the value mixed into the primary-key
  hash.  The sha1 digest itself is an external one-way function and is passed
  as a parameter wherever it is used.
-/
structure PropertyManager where
  user_pk : Property
  properties : List Property
  token : String

/- `PropertyManager.get_property_by_name`: first property with that name. -/
def getPropByName (props : List Property) (n : String) : Option Property :=
  props.find? (fun p => p.name == n)

def get_property_by_name (pm : PropertyManager) (n : String) : Option Property :=
  getPropByName pm.properties n

/- `PropertyManager.get_primary_key`: first property marked as primary key. -/
def get_primary_key (pm : PropertyManager) : Option Property :=
  pm.properties.find? (fun p => p.is_pk)

/-
  `PropertyManager.get_dependencies`.  The source recurses with no cycle
  detection and no depth bound; the extra `Nat` argument is the recursion
  budget, and `PyErr.fuel` reports that the budget ran out.  A computation
  that returns `PyErr.fuel` for every budget therefore models a call that
  never returns.  An argument that is the empty string raises IndexError
  (`p_name[0]`), and an `@`-reference to an unknown name makes the recursive
  call `get_dependencies(None)` raise AttributeError.
-/
/- The argument loop of `get_dependencies`: each `@`-argument contributes the
   referenced property followed by that property's own dependencies, obtained
   through the recursive call `rec` (`get_dependencies` itself, one stack
   frame deeper). -/
def depsLoop (pm : PropertyManager) (rec : Property → Except PyErr (List Property)) :
    List String → Except PyErr (List Property)
  | [] => pure []
  | p_name :: rest =>
    if p_name.data = [] then Except.error PyErr.index
    else if p_name.data.headD ' ' = '@' then
      match get_property_by_name pm (String.mk p_name.data.tail) with
      | none => Except.error PyErr.attr
      | some dep_prop => do
        let sub ← rec dep_prop
        let tail ← depsLoop pm rec rest
        pure (dep_prop :: sub ++ tail)
    else depsLoop pm rec rest

def get_dependencies (pm : PropertyManager) : Nat → Property → Except PyErr (List Property)
  | 0, _ => Except.error PyErr.fuel
  | fuel + 1, prop =>
    if prop.is_generated then
      depsLoop pm (fun dep_prop => get_dependencies pm fuel dep_prop) prop.fn_args
    else pure []

/- Pass 1 of `PropertyManager.info`: copy stored columns off the row in
   declaration order, hashing the primary key with the manager token. -/
def infoStored (sha1 : String → String) (token : String) (row : List Value) :
    List Property → Record → Nat → Except PyErr (Record × Nat)
  | [], result, idx => pure (result, idx)
  | prop :: rest, result, idx =>
    if prop.is_generated then infoStored sha1 token row rest result idx
    else
      match row.get? idx with
      | none => Except.error PyErr.index
      | some v =>
        let v' := if prop.is_pk then Value.str (sha1 (token ++ "###" ++ pyStr v)) else v
        infoStored sha1 token row rest (rinsert result prop.name v') (idx + 1)

/- Argument substitution of pass 2: a non-empty argument starting with `@` is
   replaced by the already computed value of the named property, raising
   `PropertyNotFoundException` when that value is absent; every other
   argument is passed through as the literal string. -/
def substArgs (result : Record) : List String → Except PyErr (List Value)
  | [] => pure []
  | a :: rest => do
    let v ←
      if a ≠ "" && a.data.headD ' ' == '@' then
        match rlookup result (String.mk a.data.tail) with
        | some v => pure v
        | none => Except.error (PyErr.propertyNotFound (String.mk a.data.tail))
      else pure (Value.str a)
    let vs ← substArgs result rest
    pure (v :: vs)

/- Pass 2 of `PropertyManager.info`: evaluate generated properties in
   declaration order (the source has no topological sort). -/
def infoGenerated : List Property → Record → Except PyErr Record
  | [], result => pure result
  | prop :: rest, result =>
    if prop.is_generated then do
      let args ← substArgs result prop.fn_args
      infoGenerated rest (rinsert result prop.name (prop.fn args))
    else infoGenerated rest result

/- Final step of `PropertyManager.info`: drop non-exposed properties.  The
   source looks each key up among the properties (`prop.filter_by` on a
   missing property is an AttributeError on None) and reads the kept value
   back out of the full result by `result[prop.name]`. -/
def stripHidden (props : List Property) (full : Record) :
    List (String × Value) → Record → Except PyErr Record
  | [], acc => pure acc
  | (k, _) :: rest, acc =>
    match getPropByName props k with
    | none => Except.error PyErr.attr
    | some p =>
      if p.filter_by then
        match rlookup full p.name with
        | some v => stripHidden props full rest (rinsert acc k v)
        | none => Except.error (PyErr.key p.name)
      else stripHidden props full rest acc

/- `PropertyManager.info`: one fetched row to one record. -/
def info (sha1 : String → String) (pm : PropertyManager) (row : List Value) :
    Except PyErr Record := do
  let r0 ← infoStored sha1 pm.token row pm.properties [] 0
  let r1 ← infoGenerated pm.properties r0.1
  stripHidden pm.properties r1 r1 []

/- The select list and source table of `PropertyManager.query`. -/
def selectFromStr (pm : PropertyManager) : String :=
  "SELECT " ++
    String.intercalate ","
      ((pm.properties.filter (fun p => !p.is_generated)).map
        (fun p => p.full ++ " AS " ++ p.name)) ++ " " ++
  "FROM " ++ pm.user_pk.table ++ " "

/- The join a single stored property contributes (empty without an fk). -/
def joinFor (pm : PropertyManager) (p : Property) : String :=
  match p.user_fk with
  | some fk => "LEFT OUTER JOIN " ++ p.table ++ " ON " ++ fk.full ++ "=" ++ pm.user_pk.full ++ " "
  | none => ""

/- The join clause: one join is emitted per stored property with a foreign
   key, in declaration order (the source performs no deduplication). -/
def joinStr (pm : PropertyManager) : String :=
  String.join ((pm.properties.filter (fun p => !p.is_generated)).map (joinFor pm))

/- `PropertyManager.query`: the shared `all` query. -/
def queryStr (pm : PropertyManager) : String :=
  selectFromStr pm ++ joinStr pm

/- The query executed by `PropertyManager.all`. -/
def allQuery (pm : PropertyManager) : String :=
  queryStr pm ++ (" GROUP BY " ++ pm.user_pk.full)

/- The query executed by `PropertyManager.get`. -/
def getQuery (pm : PropertyManager) (pk : String) : String :=
  queryStr pm ++ ("WHERE " ++ pm.user_pk.full ++ "=" ++ pk)

/- The filter classification loop of `PropertyManager.filter`: the property
   name is the part of the expression before the first `=`, `<` or `>` (the
   split set does not contain `!`), and a filter on a name matching no
   property crashes on `prop.filter_by` (AttributeError on None).  The
   accumulator carries (generated, concrete, aggregate) filters in order. -/
def classifyLoop (pm : PropertyManager) :
    List String → List String × List String × List String →
      Except PyErr (List String × List String × List String)
  | [], acc => pure acc
  | f :: rest, acc =>
    match get_property_by_name pm (reSplitHead ['=', '<', '>'] f) with
    | none => Except.error PyErr.attr
    | some prop =>
      if !prop.filter_by then Except.error (PyErr.propertyNotFound prop.name)
      else if prop.is_generated then
        classifyLoop pm rest (acc.1 ++ [f], acc.2.1, acc.2.2)
      else if prop.aggregate = none then
        classifyLoop pm rest (acc.1, acc.2.1 ++ [f], acc.2.2)
      else classifyLoop pm rest (acc.1, acc.2.1, acc.2.2 ++ [f])

def classify (pm : PropertyManager) (filters : List String) :
    Except PyErr (List String × List String × List String) :=
  classifyLoop pm filters ([], [], [])

/- The query built by `PropertyManager.filter` (for a non-empty list of
   filters), together with the generated filters deferred to
   `filter_by_generated`. -/
def filterQuery (pm : PropertyManager) (filters : List String) :
    Except PyErr (String × List String) := do
  let c ← classify pm filters
  let q := queryStr pm
  let q := if c.2.1 ≠ [] then q ++ ("WHERE " ++ String.intercalate " AND " c.2.1) else q
  let q := q ++ (" GROUP BY " ++ pm.user_pk.full)
  let q := if c.2.2 ≠ [] then q ++ (" HAVING " ++ String.intercalate " AND " c.2.2) else q
  pure (q, c.1)

/- The loop of `PropertyManager.filter_by_generated`: apply each deferred
   filter whose name resolves to a generated property over the materialized
   records with `Property.matches`. -/
def fbgLoop (pm : PropertyManager) : List String → List Record →
    Except PyErr (List Record)
  | [], results => pure results
  | g :: rest, results =>
    match get_property_by_name pm (reSplitHead ['=', '<', '>'] g) with
    | none => Except.error PyErr.attr
    | some prop =>
      if prop.is_generated then do
        let next ← filterE results fun r =>
          match rlookup r prop.name with
          | some v => prop.matches v g
          | none => Except.error (PyErr.key prop.name)
        fbgLoop pm rest next
      else fbgLoop pm rest results

def filter_by_generated (pm : PropertyManager) (results : List Record)
    (generated_filters : List String) : Except PyErr (List Record) :=
  fbgLoop pm generated_filters results

/- The dirtiness test of `UserManager.combine` for one generated property:
   some dependency is missing from either record or differs in value. -/
def dirtyCheck (deps : List Property) (old_user u : Record) : Bool :=
  deps.any (fun d =>
    (rlookup old_user d.name).isNone || (rlookup u d.name).isNone ||
      decide (rlookup u d.name ≠ rlookup old_user d.name))

/- The body of the per-property merge loop of `UserManager.combine` for one
   property: a non-dirty generated property is overwritten with the old
   record's value (`old_user[prop.name]`, a KeyError when absent). -/
def combineStep (pm : PropertyManager) (fuel : Nat) (old_user : Record)
    (prop : Property) (u : Record) : Except PyErr Record :=
  if prop.is_generated then
    (get_dependencies pm fuel prop).bind fun deps =>
      if dirtyCheck deps old_user u then pure u
      else
        match rlookup old_user prop.name with
        | some v => pure (rinsert u prop.name v)
        | none => Except.error (PyErr.key prop.name)
  else pure u

/- The per-property merge loop of `UserManager.combine` over the copied new
   record `u`. -/
def combineProps (pm : PropertyManager) (fuel : Nat) (old_user : Record) :
    List Property → Record → Except PyErr Record
  | [], u => pure u
  | prop :: rest, u =>
    (combineStep pm fuel old_user prop u).bind (combineProps pm fuel old_user rest)

/- The linear scan for an old record with the same primary-key value.  The
   key lookups raise KeyError on records without the key, and with no primary
   key at all (`pk is None`) the first iteration raises AttributeError; an
   empty old list never touches the key. -/
def findOld (pk : Option Property) (user : Record) :
    List Record → Except PyErr (Option Record)
  | [] => pure none
  | old_user :: rest =>
    match pk with
    | none => Except.error PyErr.attr
    | some pkp => do
      let a ← match rlookup old_user pkp.name with
        | some v => pure v
        | none => Except.error (PyErr.key pkp.name)
      let b ← match rlookup user pkp.name with
        | some v => pure v
        | none => Except.error (PyErr.key pkp.name)
      if a = b then pure (some old_user) else findOld pk user rest

/- `UserManager.combine` for a single new record. -/
def combineOne (pm : PropertyManager) (fuel : Nat) (pk : Option Property)
    (old_list : List Record) (user : Record) : Except PyErr Record := do
  let found ← findOld pk user old_list
  match found with
  | none => pure user
  | some old_user => combineProps pm fuel old_user pm.properties user

/- `UserManager.combine`. -/
def combine (pm : PropertyManager) (fuel : Nat) (old_list new_list : List Record) :
    Except PyErr (List Record) :=
  new_list.mapM (combineOne pm fuel (get_primary_key pm) old_list)

/-
  Construction (`Property.__init__` / `PropertyManager.__init__`).  The
  provider registry resolves a dotted provider identifier to a capability
  object with named operations (spec section 6); `methods` holds the
  operations and `typeMethods` the paired `<name>__type` inference functions.
-/
structure Provider where
  methods : String → Option (List Value → Value)
  typeMethods : String → Option (List String → String)

abbrev Providers := String → Option Provider

/- `Property.__init__`, with the foreign-key property (when any) supplied as
   an already-run action: the source builds it right after the connection
   lookup of the stored branch. -/
def mkPropertyWith (fkAct : Except PyErr (Option Property)) (providers : Providers)
    (conns : List String) (source : String) (nameO tpO aggregate labelO : Option String)
    (filter_by is_pk : Bool) : Except PyErr Property := do
  let part0 := (pySplit '@' source).headD ""
  let table := (pySplit '.' part0).headD ""
  let column ← match (pySplit '.' part0).get? 1 with
    | some c => pure c
    | none => Except.error PyErr.index
  let name := match nameO with
    | some n => n
    | none =>
      match aggregate with
      | some a => column ++ "__" ++ a
      | none => column
  let label := labelO.getD name
  let tp0 := tpO.getD "VARCHAR"
  match source.data with
  | [] => Except.error PyErr.index
  | c0 :: _ =>
    if c0 = '^' then
      -- generated property: load the provider class, method and arguments
      let cls_name := String.mk ((pySplit '.' source).headD "").data.tail
      match providers cls_name with
      | none => Except.error (PyErr.providerNotFound cls_name)
      | some cls => do
        let fn_name ← match (pySplit '.' source).get? 1 with
          | some s => pure ((pySplit '(' s).headD "")
          | none => Except.error PyErr.index
        let fn ← match cls.methods fn_name with
          | some f => pure f
          | none => Except.error (PyErr.providerMethodNotFound fn_name)
        -- arguments: the substring after the first left parenthesis, with the
        -- final character dropped (`source[pos+1:-1]`; `find` returns -1 when
        -- there is no parenthesis, so the slice then starts at 0)
        let args_str := match source.data.findIdx? (fun c => c = '(') with
          | some i => String.mk ((source.data.drop (i + 1)).dropLast)
          | none => String.mk source.data.dropLast
        let fn_args := csvSplit args_str
        let tp ←
          if tp0 = "###" then
            match cls.typeMethods (fn_name ++ "__type") with
            | some ft => pure (ft fn_args)
            | none => Except.error (PyErr.providerMethodNotFound (fn_name ++ "__type"))
          else pure tp0
        pure ⟨source, table, column, aggregate, filter_by, is_pk, name, label, tp,
              none, none, fn, fn_args⟩
    else do
      -- stored property: find the responsible connection, then the fk
      let conn_name ← match (pySplit '@' source).get? 1 with
        | some s => pure s
        | none => Except.error PyErr.index
      if conns.contains conn_name then do
        let fk ← fkAct
        pure ⟨source, table, column, aggregate, filter_by, is_pk, name, label, tp0,
              some conn_name, fk, fun _ => Value.int 0, []⟩
      else Except.error (PyErr.connectionNotFound conn_name)

def mkPropertyNoFk (providers : Providers) (conns : List String) (source : String)
    (nameO tpO aggregate labelO : Option String) (filter_by is_pk : Bool) :
    Except PyErr Property :=
  mkPropertyWith (pure none) providers conns source nameO tpO aggregate labelO
    filter_by is_pk

def mkProperty (providers : Providers) (conns : List String) (source : String)
    (user_fk : Option String) (nameO tpO aggregate labelO : Option String)
    (filter_by is_pk : Bool) : Except PyErr Property :=
  mkPropertyWith
    (match user_fk with
     | none => pure none
     | some s => (mkPropertyNoFk providers conns s none none none none true false).map some)
    providers conns source nameO tpO aggregate labelO filter_by is_pk

/- One entry of `configuration.data['sites'][0]['properties']`. -/
structure ConfigEntry where
  source : String
  name : String
  type : String
  user_fk : Option String
  aggregate : Option String
  label : Option String
  expose : Option Bool

/- `PropertyManager.__init__`: the primary-key property first, then one
   property per configured entry.  No validation of `@` argument references
   against the property set happens anywhere in construction. -/
def mkPropertyManager (providers : Providers) (conns : List String)
    (user_pk_source : String) (entries : List ConfigEntry) (token : String) :
    Except PyErr PropertyManager := do
  let pk ← mkProperty providers conns user_pk_source none none none none none true true
  let props ← entries.foldlM
    (fun acc e => do
      let label := e.label.getD e.name
      let expose := e.expose.getD true
      let p ← mkProperty providers conns e.source e.user_fk (some e.name)
        (some e.type) e.aggregate (some label) expose false
      pure (acc ++ [p]))
    [pk]
  pure ⟨pk, props, token⟩

/-
  Concrete property sets used to evaluate the model on explicit inputs.
  The parsed `table`/`column` fields of generated properties carry the
  garbage the source parser extracts from a `^provider.method(args)` string
  (lines 63-64 of the source run before the generated/stored distinction).
-/
def egPK : Property :=
  ⟨"users.id@db", "users", "id", none, true, true, "id", "id", "INTEGER",
   some "db", none, fun _ => Value.int 0, []⟩

def egAge : Property :=
  ⟨"users.age@db", "users", "age", none, true, false, "age", "age", "INTEGER",
   some "db", none, fun _ => Value.int 0, []⟩

def egAgg : Property :=
  ⟨"orders.total@db", "orders", "total", some "COUNT", true, false,
   "total__COUNT", "total", "INTEGER", some "db", none, fun _ => Value.int 0, []⟩

def egGen : Property :=
  ⟨"^Fake.f(@age)", "^Fake", "f(", none, true, false, "gen", "gen", "VARCHAR",
   none, none, fun args => args.headD (Value.int 0), ["@age"]⟩

/- A manager with a stored, an aggregated and a generated property. -/
def egPM : PropertyManager := ⟨egPK, [egPK, egAge, egAgg, egGen], "t1"⟩

/- Two single-property managers differing only in their run token. -/
def egPM4a : PropertyManager := ⟨egPK, [egPK], "t1"⟩

def egPM4b : PropertyManager := ⟨egPK, [egPK], "t2"⟩

/- An acyclic property set declared out of dependency order: `b` reads `@c`
   but is declared before `c`. -/
def genBBeforeC : Property :=
  ⟨"^Fake.b(@c)", "^Fake", "b(", none, true, false, "b", "b", "VARCHAR",
   none, none, fun args => args.headD (Value.int 0), ["@c"]⟩

def genCLast : Property :=
  ⟨"^Fake.c()", "^Fake", "c()", none, true, false, "c", "c", "VARCHAR",
   none, none, fun _ => Value.str "cv", []⟩

def egPM2 : PropertyManager := ⟨egPK, [egPK, genBBeforeC, genCLast], "t"⟩

/- The same two generated properties declared in dependency order. -/
def egPM2w : PropertyManager := ⟨egPK, [egPK, genCLast, genBBeforeC], "t"⟩

/- The outputs of the row evaluator on the two single-property managers. -/
def c4r1 : Record := [("id", Value.str "t1###u1")]

def c4r2 : Record := [("id", Value.str "t2###u1")]

/- A generated property that reads itself. -/
def cycProp : Property :=
  ⟨"^Fake.c(@cyc)", "^Fake", "c(", none, true, false, "cyc", "cyc", "VARCHAR",
   none, none, fun _ => Value.int 0, ["@cyc"]⟩

def cycPM : PropertyManager := ⟨egPK, [egPK, cycProp], "t"⟩

/- A generated property with no references at all, and one depending on it. -/
def genA : Property :=
  ⟨"^Fake.a()", "^Fake", "a()", none, true, false, "a", "a", "VARCHAR",
   none, none, fun _ => Value.int 0, []⟩

def genB : Property :=
  ⟨"^Fake.b(@a)", "^Fake", "b(", none, true, false, "b", "b", "VARCHAR",
   none, none, fun args => args.headD (Value.int 0), ["@a"]⟩

def maskPM : PropertyManager := ⟨egPK, [egPK, genA, genB], "t"⟩

def c1old : Record := [("id", Value.str "k"), ("a", Value.int 1), ("b", Value.int 10)]

def c1new : Record := [("id", Value.str "k"), ("a", Value.int 2), ("b", Value.int 20)]

def c1merged : Record := [("id", Value.str "k"), ("a", Value.int 1), ("b", Value.int 10)]

/- A generated property whose argument list holds an empty token
   (source string `^Fake.g(,)`, two empty CSV fields). -/
def genE : Property :=
  ⟨"^Fake.g(,)", "^Fake", "g(,)", none, true, false, "e", "e", "VARCHAR",
   none, none, fun _ => Value.int 0, ["", ""]⟩

def egPM9 : PropertyManager := ⟨egPK, [egPK, genE], "t"⟩

def c9old : Record := [("id", Value.str "k"), ("e", Value.int 1)]

def c9new : Record := [("id", Value.str "k"), ("e", Value.int 2)]

/- Records for the merge-engine witnesses: the generated `gen` depends on the
   stored `age`, which is unchanged between the passes. -/
def c1wold : Record :=
  [("id", Value.str "k"), ("age", Value.int 7), ("gen", Value.int 10),
   ("total__COUNT", Value.int 0)]

def c1wnew : Record :=
  [("id", Value.str "k"), ("age", Value.int 7), ("gen", Value.int 20),
   ("total__COUNT", Value.int 1)]

def c1wres : Record :=
  [("id", Value.str "k"), ("age", Value.int 7), ("gen", Value.int 10),
   ("total__COUNT", Value.int 1)]

/- A generated property whose single argument is the literal `x`. -/
def genLit : Property :=
  ⟨"^Fake.h(x)", "^Fake", "h(x)", none, true, false, "h", "h", "VARCHAR",
   none, none, fun _ => Value.int 5, ["x"]⟩

def egPM9w : PropertyManager := ⟨egPK, [egPK, genLit], "t"⟩

def c9wold : Record := [("id", Value.str "k"), ("h", Value.int 1)]

def c9wnew : Record := [("id", Value.str "k"), ("h", Value.int 2)]

def c9wres : Record := [("id", Value.str "k"), ("h", Value.int 1)]

/- Two stored properties joined through the same foreign-key table `t2`. -/
def fk8 : Property :=
  ⟨"t2.uid@db", "t2", "uid", none, true, false, "uid", "uid", "VARCHAR",
   some "db", none, fun _ => Value.int 0, []⟩

def p81 : Property :=
  ⟨"t2.a@db", "t2", "a", none, true, false, "a", "a", "VARCHAR",
   some "db", some fk8, fun _ => Value.int 0, []⟩

def p82 : Property :=
  ⟨"t2.b@db", "t2", "b", none, true, false, "b", "b", "VARCHAR",
   some "db", some fk8, fun _ => Value.int 0, []⟩

def egPM8 : PropertyManager := ⟨egPK, [egPK, p81, p82], "t"⟩

/- The provider registry and configuration of the construction examples:
   provider `Fake` with one method `f` returning its first argument. -/
def egProviders : Providers := fun cls =>
  if cls = "Fake" then
    some ⟨fun m => if m = "f" then some (fun args => args.headD (Value.int 0)) else none,
          fun _ => none⟩
  else none

/- A configured generated property whose `@` argument names no property. -/
def c5entry : ConfigEntry :=
  ⟨"^Fake.f(@missing)", "gen", "VARCHAR", none, none, none, none⟩

/- The constructed manager of the construction examples. -/
def c5built : Except PyErr PropertyManager :=
  mkPropertyManager egProviders ["db"] "users.id@db" [c5entry] "t"

/- Dependency resolution of a property terminates when some recursion budget
   lets it finish (with any outcome other than budget exhaustion). -/
def DepsTerminate (pm : PropertyManager) (p : Property) : Prop :=
  ∃ fuel, get_dependencies pm fuel p ≠ Except.error PyErr.fuel

/- The WHERE part and the HAVING part of the query `PropertyManager.filter`
   builds, as standalone functions of the classified filters. -/
def filterPre (pm : PropertyManager) (filters : List String) : String :=
  match classify pm filters with
  | Except.ok c =>
    if c.2.1 ≠ [] then queryStr pm ++ ("WHERE " ++ String.intercalate " AND " c.2.1)
    else queryStr pm
  | Except.error _ => ""

def filterSuf (pm : PropertyManager) (filters : List String) : String :=
  match classify pm filters with
  | Except.ok c =>
    if c.2.2 ≠ [] then " HAVING " ++ String.intercalate " AND " c.2.2
    else ""
  | Except.error _ => ""

/- The ordering condition of the row evaluator, as an executable check: every
   `@` argument of every generated property must name either a stored
   property of the set or a generated property declared earlier. -/
def argsResolvable (avail : List String) (args : List String) : Bool :=
  args.all fun a =>
    if a ≠ "" && a.data.headD ' ' == '@' then avail.contains (String.mk a.data.tail)
    else true

def genOrderOK (storedNames : List String) : List Property → List String → Bool
  | [], _ => true
  | p :: ps, seen =>
    if p.is_generated then
      argsResolvable (storedNames ++ seen) p.fn_args && genOrderOK storedNames ps (seen ++ [p.name])
    else genOrderOK storedNames ps seen

def evalOrderOK (props : List Property) : Bool :=
  genOrderOK ((props.filter (fun p => !p.is_generated)).map Property.name) props []

/-
  Helper lemmas: records.
-/
theorem rlookup_rinsert_self (r : Record) (k : String) (v : Value) :
    rlookup (rinsert r k v) k = some v := by
  induction r with
  | nil => simp [rinsert, rlookup]
  | cons kv rest ih =>
    obtain ⟨k0, w⟩ := kv
    by_cases h : k0 = k
    · simp [rinsert, h, rlookup]
    · simp [rinsert, h, rlookup, ih]

theorem rlookup_rinsert_ne (r : Record) (k : String) (v : Value) (k' : String)
    (h : k ≠ k') : rlookup (rinsert r k v) k' = rlookup r k' := by
  induction r with
  | nil => simp [rinsert, rlookup, h]
  | cons kv rest ih =>
    obtain ⟨k0, w⟩ := kv
    by_cases h0 : k0 = k
    · subst h0
      simp [rinsert, rlookup, h]
    · simp [rinsert, rlookup, h0, ih]

theorem rlookup_rinsert_isSome (r : Record) (k : String) (v : Value) (k' : String)
    (h : (rlookup r k').isSome) : (rlookup (rinsert r k v) k').isSome := by
  by_cases hk : k = k'
  · subst hk
    simp [rlookup_rinsert_self]
  · rwa [rlookup_rinsert_ne r k v k' hk]

theorem rlookup_isSome_of_mem (r : Record) (k : String) (v : Value)
    (h : (k, v) ∈ r) : (rlookup r k).isSome := by
  induction r with
  | nil => simp at h
  | cons kv rest ih =>
    obtain ⟨k0, w⟩ := kv
    by_cases hk : k0 = k
    · simp [rlookup, hk]
    · rcases List.mem_cons.mp h with h0 | h0
      · cases h0
        exact absurd rfl hk
      · simp [rlookup, hk]
        exact ih h0

theorem mem_keys_of_rlookup_isSome (r : Record) (k : String)
    (h : (rlookup r k).isSome) : k ∈ r.map Prod.fst := by
  induction r with
  | nil => simp [rlookup] at h
  | cons kv rest ih =>
    obtain ⟨k0, w⟩ := kv
    by_cases hk : k0 = k
    · simp [hk]
    · simp [rlookup, hk] at h
      simp [ih h]

theorem mem_keys_rinsert (r : Record) (k : String) (v : Value) (a : String) :
    a ∈ (rinsert r k v).map Prod.fst ↔ a = k ∨ a ∈ r.map Prod.fst := by
  induction r with
  | nil => simp [rinsert]
  | cons kv rest ih =>
    obtain ⟨k0, w⟩ := kv
    by_cases h : k0 = k
    · subst h
      simp [rinsert]
    · simp [rinsert, h, ih]
      tauto

theorem rinsert_keysNodup (r : Record) (k : String) (v : Value)
    (h : (r.map Prod.fst).Nodup) : ((rinsert r k v).map Prod.fst).Nodup := by
  induction r with
  | nil => simp [rinsert]
  | cons kv rest ih =>
    obtain ⟨k0, w⟩ := kv
    simp only [List.map_cons, List.nodup_cons] at h
    by_cases hk : k0 = k
    · subst hk
      have he : rinsert ((k0, w) :: rest) k0 v = (k0, v) :: rest := by simp [rinsert]
      rw [he]
      simp only [List.map_cons, List.nodup_cons]
      exact h
    · have he : rinsert ((k0, w) :: rest) k v = (k0, w) :: rinsert rest k v := by
        simp [rinsert, hk]
      rw [he]
      simp only [List.map_cons, List.nodup_cons]
      constructor
      · intro hm
        rcases (mem_keys_rinsert rest k v k0).mp hm with he2 | hm2
        · exact hk he2
        · exact h.1 hm2
      · exact ih h.2

/-
  Helper lemmas: property names under a no-duplicate-names assumption.
-/
theorem eq_of_name_eq {props : List Property}
    (hnd : (props.map Property.name).Nodup) {p q : Property}
    (hp : p ∈ props) (hq : q ∈ props) (h : p.name = q.name) : p = q :=
  List.inj_on_of_nodup_map hnd hp hq h

theorem name_ne_of_gen_ne {props : List Property}
    (hnd : (props.map Property.name).Nodup) {p q : Property}
    (hp : p ∈ props) (hq : q ∈ props) (h : p.is_generated ≠ q.is_generated) :
    p.name ≠ q.name := fun he => h (by rw [eq_of_name_eq hnd hp hq he])

theorem name_notMem_of_decomp {l1 l2 : List Property} {prop : Property}
    (hnd : (((l1 ++ prop :: l2)).map Property.name).Nodup) :
    prop.name ∉ l1.map Property.name ∧ prop.name ∉ l2.map Property.name := by
  simp only [List.map_append, List.map_cons, List.nodup_append, List.nodup_cons] at hnd
  refine ⟨fun hm => ?_, hnd.2.1.1⟩
  exact hnd.2.2 hm (by simp)

/-
  Helper lemmas: `get_property_by_name`.
-/
theorem getPropByName_name {props : List Property} {k : String} {p : Property}
    (h : getPropByName props k = some p) : p.name = k := by
  have := List.find?_some h
  simpa using this

theorem getPropByName_mem {props : List Property} {k : String} {p : Property}
    (h : getPropByName props k = some p) : p ∈ props :=
  List.mem_of_find?_eq_some h

theorem getPropByName_isSome {props : List Property} {k : String}
    (h : ∃ p ∈ props, p.name = k) : (getPropByName props k).isSome := by
  rw [getPropByName, List.find?_isSome]
  obtain ⟨p, hp, hn⟩ := h
  exact ⟨p, hp, by simp [hn]⟩

/-
  Helper lemmas: computations in `Except`.
-/
theorem ebind_ok {ε α β : Type} (a : α) (f : α → Except ε β) :
    (Except.ok a : Except ε α) >>= f = f a := rfl

theorem ebind_err {ε α β : Type} (e : ε) (f : α → Except ε β) :
    (Except.error e : Except ε α) >>= f = Except.error e := rfl

theorem ebindE_ok {ε α β : Type} (a : α) (f : α → Except ε β) :
    Except.bind (Except.ok a) f = f a := rfl

theorem ebindE_err {ε α β : Type} (e : ε) (f : α → Except ε β) :
    Except.bind (Except.error e) f = Except.error e := rfl

theorem epure_eq {ε α : Type} (a : α) : (pure a : Except ε α) = Except.ok a := rfl

theorem ebind_eq_ok {ε α β : Type} {x : Except ε α} {f : α → Except ε β} {b : β}
    (h : x >>= f = Except.ok b) : ∃ a, x = Except.ok a ∧ f a = Except.ok b := by
  cases x with
  | ok a => exact ⟨a, rfl, h⟩
  | error e => simp [ebind_err] at h

theorem ebindE_eq_ok {ε α β : Type} {x : Except ε α} {f : α → Except ε β} {b : β}
    (h : Except.bind x f = Except.ok b) : ∃ a, x = Except.ok a ∧ f a = Except.ok b := by
  cases x with
  | ok a => exact ⟨a, rfl, h⟩
  | error e => simp [ebindE_err] at h

/-
  Helper lemmas: `get_dependencies`.
-/
theorem str_eq_empty_of_data {a : String} (h : a.data = []) : a = "" := by
  cases a
  exact congrArg String.mk h

theorem str_append_right_cancel {a b c : String} (h : a ++ c = b ++ c) : a = b := by
  apply String.ext
  have h2 := congrArg String.data h
  rw [String.data_append, String.data_append] at h2
  exact List.append_cancel_right h2

theorem depsLoop_mem_aux (pm : PropertyManager)
    (rec : Property → Except PyErr (List Property))
    (hP : ∀ prop deps, rec prop = Except.ok deps →
      ∀ d ∈ deps, d ∈ pm.properties) :
    ∀ args deps, depsLoop pm rec args = Except.ok deps →
      ∀ d ∈ deps, d ∈ pm.properties := by
  intro args
  induction args with
  | nil =>
    intro deps h d hd
    simp [depsLoop, epure_eq] at h
    subst h
    simp at hd
  | cons a rest ih =>
    intro deps h d hd
    rw [depsLoop] at h
    by_cases h0 : a.data = []
    · rw [if_pos h0] at h
      simp at h
    · rw [if_neg h0] at h
      by_cases hc : a.data.headD ' ' = '@'
      · rw [if_pos hc] at h
        cases hlk : get_property_by_name pm (String.mk a.data.tail) with
        | none => rw [hlk] at h; simp at h
        | some dep =>
          rw [hlk] at h
          obtain ⟨sub, hsub, h2⟩ := ebind_eq_ok h
          obtain ⟨tail, htail, h3⟩ := ebind_eq_ok h2
          rw [epure_eq] at h3
          cases h3
          rcases List.mem_cons.mp hd with hdd | hdd
          · subst hdd
            exact getPropByName_mem hlk
          · rcases List.mem_append.mp hdd with hdd2 | hdd2
            · exact hP dep sub hsub d hdd2
            · exact ih tail htail d hdd2
      · rw [if_neg hc] at h
        exact ih deps h d hd

theorem getDeps_mem (pm : PropertyManager) :
    ∀ fuel prop deps, get_dependencies pm fuel prop = Except.ok deps →
      ∀ d ∈ deps, d ∈ pm.properties := by
  intro fuel
  induction fuel with
  | zero =>
    intro prop deps h
    simp [get_dependencies] at h
  | succ n ih =>
    intro prop deps h d hd
    rw [get_dependencies] at h
    by_cases hg : prop.is_generated
    · rw [if_pos hg] at h
      exact depsLoop_mem_aux pm (fun dep => get_dependencies pm n dep)
        (fun q dq hq => ih q dq hq) prop.fn_args deps h d hd
    · rw [if_neg hg, epure_eq] at h
      cases h
      simp at hd

/- Arguments that are non-empty and carry no `@` reference yield no
   dependencies at all. -/
theorem depsLoop_no_at (pm : PropertyManager)
    (rec : Property → Except PyErr (List Property)) (args : List String)
    (hargs : ∀ a ∈ args, a ≠ "" ∧ a.data.headD ' ' ≠ '@') :
    depsLoop pm rec args = Except.ok [] := by
  induction args with
  | nil => simp [depsLoop, epure_eq]
  | cons a rest ih =>
    obtain ⟨hne, hat⟩ := hargs a (by simp)
    rw [depsLoop]
    rw [if_neg (fun h0 => hne (str_eq_empty_of_data h0)), if_neg hat]
    exact ih fun x hx => hargs x (by simp [hx])

theorem getDeps_no_at (pm : PropertyManager) (fuel : Nat) (prop : Property)
    (hgen : prop.is_generated = true)
    (hargs : ∀ a ∈ prop.fn_args, a ≠ "" ∧ a.data.headD ' ' ≠ '@') :
    get_dependencies pm (fuel + 1) prop = Except.ok [] := by
  rw [get_dependencies, if_pos hgen]
  exact depsLoop_no_at pm _ prop.fn_args hargs

/- A generated property whose first argument refers back to itself exhausts
   every recursion budget: the source recursion never returns on it. -/
theorem getDeps_self_loop (pm : PropertyManager) (p : Property) (rest : List String)
    (hgen : p.is_generated = true)
    (hargs : p.fn_args = ("@" ++ p.name) :: rest)
    (hlook : get_property_by_name pm p.name = some p) :
    ∀ fuel, get_dependencies pm fuel p = Except.error PyErr.fuel := by
  intro fuel
  induction fuel with
  | zero => rw [get_dependencies]
  | succ n ih =>
    rw [get_dependencies, if_pos hgen, hargs, depsLoop]
    have hdata : ("@" ++ p.name).data = '@' :: p.name.data := by
      rw [String.data_append]
      rfl
    rw [hdata]
    rw [if_neg (by simp), if_pos (by rfl)]
    have htail : String.mk ('@' :: p.name.data).tail = p.name := rfl
    rw [htail, hlook]
    simp [ih, ebind_err]

/-
  Helper lemmas: the merge loop of `UserManager.combine`.
-/
theorem combineProps_append (pm : PropertyManager) (fuel : Nat) (old_user : Record)
    (xs ys : List Property) (u : Record) :
    combineProps pm fuel old_user (xs ++ ys) u =
      Except.bind (combineProps pm fuel old_user xs u)
        (combineProps pm fuel old_user ys) := by
  induction xs generalizing u with
  | nil => rw [List.nil_append, combineProps, epure_eq, ebindE_ok]
  | cons p ps ih =>
    rw [List.cons_append, combineProps, combineProps]
    cases combineStep pm fuel old_user p u with
    | ok u' => rw [ebindE_ok, ebindE_ok, ih]
    | error e => rw [ebindE_err, ebindE_err, ebindE_err]

/- Properties that never write a key leave its lookup unchanged: only
   generated properties write, and only at their own name. -/
theorem combineProps_untouched (pm : PropertyManager) (fuel : Nat) (old_user : Record)
    (ps : List Property) (u r : Record) (k : String)
    (h : combineProps pm fuel old_user ps u = Except.ok r)
    (hk : ∀ p ∈ ps, p.is_generated = true → p.name ≠ k) :
    rlookup r k = rlookup u k := by
  induction ps generalizing u with
  | nil =>
    rw [combineProps, epure_eq] at h
    cases h
    rfl
  | cons p rest ih =>
    rw [combineProps] at h
    obtain ⟨u', hstep, hrest⟩ := ebindE_eq_ok h
    have hu' : rlookup u' k = rlookup u k := by
      rw [combineStep] at hstep
      by_cases hg : p.is_generated
      · rw [if_pos hg] at hstep
        obtain ⟨deps, hdeps, h2⟩ := ebindE_eq_ok hstep
        by_cases hd : dirtyCheck deps old_user u
        · rw [if_pos hd, epure_eq] at h2
          cases h2
          rfl
        · rw [if_neg hd] at h2
          cases hlko : rlookup old_user p.name with
          | none =>
            rw [hlko] at h2
            exact Except.noConfusion
              (show (Except.error (PyErr.key p.name) : Except PyErr Record) =
                Except.ok u' from h2)
          | some v =>
            rw [hlko] at h2
            have h2' : Except.ok (rinsert u p.name v) = Except.ok u' := h2
            cases h2'
            exact rlookup_rinsert_ne u p.name v k (hk p (by simp) (by simpa using hg))
      · rw [if_neg hg, epure_eq] at hstep
        cases hstep
        rfl
    rw [ih u' hrest fun q hq => hk q (by simp [hq]), hu']

theorem dirtyCheck_congr (deps : List Property) (old_user u u' : Record)
    (h : ∀ d ∈ deps, rlookup u d.name = rlookup u' d.name) :
    dirtyCheck deps old_user u = dirtyCheck deps old_user u' := by
  induction deps with
  | nil => rfl
  | cons d rest ih =>
    rw [dirtyCheck, dirtyCheck, List.any_cons, List.any_cons]
    rw [h d (by simp)]
    have := ih fun x hx => h x (by simp [hx])
    rw [dirtyCheck, dirtyCheck] at this
    rw [this]

/- The core of the differential merge: in a successful run over a property
   set with pairwise distinct names, a generated property whose dependencies
   are all stored is carried over from the old record exactly when no
   dependency is missing from or differs between the old record and the
   original new record. -/
theorem combineProps_core (pm : PropertyManager) (fuel : Nat) (old_user : Record)
    (l1 : List Property) (prop : Property) (l2 : List Property)
    (user res : Record) (deps : List Property)
    (hnd : ((l1 ++ prop :: l2).map Property.name).Nodup)
    (hmem : ∀ d ∈ deps, d ∈ l1 ++ prop :: l2)
    (hgen : prop.is_generated = true)
    (hdeps : get_dependencies pm fuel prop = Except.ok deps)
    (hstored : ∀ d ∈ deps, d.is_generated = false)
    (hrun : combineProps pm fuel old_user (l1 ++ prop :: l2) user = Except.ok res) :
    rlookup res prop.name =
      if dirtyCheck deps old_user user then rlookup user prop.name
      else rlookup old_user prop.name := by
  rw [combineProps_append] at hrun
  obtain ⟨u1, h1, h2⟩ := ebindE_eq_ok hrun
  -- the prefix never writes a stored dependency's name
  have hdep_eq : ∀ d ∈ deps, rlookup u1 d.name = rlookup user d.name := by
    intro d hd
    refine combineProps_untouched pm fuel old_user l1 user u1 d.name h1 ?_
    intro q hq hqg he
    exact name_ne_of_gen_ne hnd (by simp [hq]) (hmem d hd)
      (by rw [hqg, hstored d hd]; simp) he
  have hdirty : dirtyCheck deps old_user u1 = dirtyCheck deps old_user user :=
    dirtyCheck_congr deps old_user u1 user hdep_eq
  -- names of generated properties around `prop` differ from `prop.name`
  have hl1 : ∀ q ∈ l1, q.is_generated = true → q.name ≠ prop.name := by
    intro q hq _ he
    exact (name_notMem_of_decomp hnd).1 (by
      rw [← he]
      exact List.mem_map_of_mem Property.name hq)
  have hl2 : ∀ q ∈ l2, q.is_generated = true → q.name ≠ prop.name := by
    intro q hq _ he
    exact (name_notMem_of_decomp hnd).2 (by
      rw [← he]
      exact List.mem_map_of_mem Property.name hq)
  -- unfold the step at `prop`
  rw [combineProps] at h2
  obtain ⟨u2, hstep, h3⟩ := ebindE_eq_ok h2
  rw [combineStep, if_pos hgen, hdeps, ebindE_ok] at hstep
  by_cases hd : dirtyCheck deps old_user u1
  · rw [if_pos hd, epure_eq] at hstep
    cases hstep
    rw [if_pos (by rw [← hdirty]; exact hd)]
    rw [combineProps_untouched pm fuel old_user l2 _ res prop.name h3 hl2]
    exact combineProps_untouched pm fuel old_user l1 user _ prop.name h1 hl1
  · rw [if_neg hd] at hstep
    rw [if_neg (by rw [← hdirty]; exact hd)]
    cases hlko : rlookup old_user prop.name with
    | none =>
      rw [hlko] at hstep
      exact Except.noConfusion
        (show (Except.error (PyErr.key prop.name) : Except PyErr Record) =
          Except.ok u2 from hstep)
    | some v =>
      rw [hlko] at hstep
      have hstep' : Except.ok (rinsert u1 prop.name v) = Except.ok u2 := hstep
      cases hstep'
      rw [combineProps_untouched pm fuel old_user l2 _ res prop.name h3 hl2]
      rw [rlookup_rinsert_self]

/-
  Helper lemmas: pass 1 of the row evaluator.
-/
theorem infoStored_untouched (sha1 : String → String) (token : String) (row : List Value)
    (props : List Property) (res : Record) (idx : Nat) (res' : Record) (idx' : Nat)
    (k : String)
    (h : infoStored sha1 token row props res idx = Except.ok (res', idx'))
    (hk : ∀ p ∈ props, p.is_generated = false → p.name ≠ k) :
    rlookup res' k = rlookup res k := by
  induction props generalizing res idx with
  | nil =>
    rw [infoStored, epure_eq] at h
    cases h
    rfl
  | cons p rest ih =>
    rw [infoStored] at h
    by_cases hg : p.is_generated
    · rw [if_pos hg] at h
      exact ih res idx h fun q hq => hk q (by simp [hq])
    · rw [if_neg hg] at h
      cases hrow : row.get? idx with
      | none =>
        rw [hrow] at h
        exact Except.noConfusion
          (show (Except.error PyErr.index : Except PyErr (Record × Nat)) =
            Except.ok (res', idx') from h)
      | some v =>
        rw [hrow] at h
        have h' := ih _ _ h fun q hq => hk q (by simp [hq])
        rw [h']
        exact rlookup_rinsert_ne res p.name _ k
          (hk p (by simp) (by simpa using hg))

theorem infoStored_isSome_mono (sha1 : String → String) (token : String)
    (row : List Value) (props : List Property) (res : Record) (idx : Nat)
    (res' : Record) (idx' : Nat) (k : String)
    (h : infoStored sha1 token row props res idx = Except.ok (res', idx'))
    (hs : (rlookup res k).isSome) : (rlookup res' k).isSome := by
  induction props generalizing res idx with
  | nil =>
    rw [infoStored, epure_eq] at h
    cases h
    exact hs
  | cons p rest ih =>
    rw [infoStored] at h
    by_cases hg : p.is_generated
    · rw [if_pos hg] at h
      exact ih res idx h hs
    · rw [if_neg hg] at h
      cases hrow : row.get? idx with
      | none =>
        rw [hrow] at h
        exact Except.noConfusion
          (show (Except.error PyErr.index : Except PyErr (Record × Nat)) =
            Except.ok (res', idx') from h)
      | some v =>
        rw [hrow] at h
        exact ih _ _ h (rlookup_rinsert_isSome res p.name _ k hs)

theorem infoStored_contains (sha1 : String → String) (token : String)
    (row : List Value) (props : List Property) (res : Record) (idx : Nat)
    (res' : Record) (idx' : Nat)
    (h : infoStored sha1 token row props res idx = Except.ok (res', idx')) :
    ∀ p ∈ props, p.is_generated = false → (rlookup res' p.name).isSome := by
  induction props generalizing res idx with
  | nil =>
    intro p hp
    simp at hp
  | cons p rest ih =>
    intro q hq hqg
    rw [infoStored] at h
    by_cases hg : p.is_generated
    · rw [if_pos hg] at h
      rcases List.mem_cons.mp hq with he | hm
      · subst he
        rw [hg] at hqg
        cases hqg
      · exact ih res idx h q hm hqg
    · rw [if_neg hg] at h
      cases hrow : row.get? idx with
      | none =>
        rw [hrow] at h
        exact Except.noConfusion
          (show (Except.error PyErr.index : Except PyErr (Record × Nat)) =
            Except.ok (res', idx') from h)
      | some v =>
        rw [hrow] at h
        rcases List.mem_cons.mp hq with he | hm
        · subst he
          exact infoStored_isSome_mono sha1 token row rest _ _ res' idx' q.name h
            (by rw [rlookup_rinsert_self]; rfl)
        · exact ih _ _ h q hm hqg

theorem infoStored_keys_sub (sha1 : String → String) (token : String)
    (row : List Value) (props : List Property) (res : Record) (idx : Nat)
    (res' : Record) (idx' : Nat) (k : String)
    (h : infoStored sha1 token row props res idx = Except.ok (res', idx'))
    (hs : (rlookup res' k).isSome) :
    (rlookup res k).isSome ∨ ∃ p ∈ props, p.name = k := by
  induction props generalizing res idx with
  | nil =>
    rw [infoStored, epure_eq] at h
    cases h
    exact Or.inl hs
  | cons p rest ih =>
    rw [infoStored] at h
    by_cases hg : p.is_generated
    · rw [if_pos hg] at h
      rcases ih res idx h with hres | ⟨q, hq, hn⟩
      · exact Or.inl hres
      · exact Or.inr ⟨q, by simp [hq], hn⟩
    · rw [if_neg hg] at h
      cases hrow : row.get? idx with
      | none =>
        rw [hrow] at h
        exact Except.noConfusion
          (show (Except.error PyErr.index : Except PyErr (Record × Nat)) =
            Except.ok (res', idx') from h)
      | some v =>
        rw [hrow] at h
        rcases ih _ _ h with hres | ⟨q, hq, hn⟩
        · by_cases hk : p.name = k
          · exact Or.inr ⟨p, by simp, hk⟩
          · rw [rlookup_rinsert_ne res p.name _ k hk] at hres
            exact Or.inl hres
        · exact Or.inr ⟨q, by simp [hq], hn⟩

theorem infoStored_keysNodup (sha1 : String → String) (token : String)
    (row : List Value) (props : List Property) (res : Record) (idx : Nat)
    (res' : Record) (idx' : Nat)
    (h : infoStored sha1 token row props res idx = Except.ok (res', idx'))
    (hnd : (res.map Prod.fst).Nodup) : (res'.map Prod.fst).Nodup := by
  induction props generalizing res idx with
  | nil =>
    rw [infoStored, epure_eq] at h
    cases h
    exact hnd
  | cons p rest ih =>
    rw [infoStored] at h
    by_cases hg : p.is_generated
    · rw [if_pos hg] at h
      exact ih res idx h hnd
    · rw [if_neg hg] at h
      cases hrow : row.get? idx with
      | none =>
        rw [hrow] at h
        exact Except.noConfusion
          (show (Except.error PyErr.index : Except PyErr (Record × Nat)) =
            Except.ok (res', idx') from h)
      | some v =>
        rw [hrow] at h
        exact ih _ _ h (rinsert_keysNodup res p.name _ hnd)

/-
  Helper lemmas: pass 2 of the row evaluator.
-/
theorem substArgs_ok (res : Record) (args : List String)
    (h : ∀ a ∈ args, a ≠ "" → a.data.headD ' ' = '@' →
      (rlookup res (String.mk a.data.tail)).isSome) :
    ∃ vs, substArgs res args = Except.ok vs := by
  induction args with
  | nil => exact ⟨[], rfl⟩
  | cons a rest ih =>
    obtain ⟨vs, hvs⟩ := ih fun x hx => h x (by simp [hx])
    rw [substArgs]
    by_cases hcond : a ≠ "" && a.data.headD ' ' == '@'
    · rw [if_pos hcond]
      simp only [Bool.and_eq_true, ne_eq, beq_iff_eq, decide_eq_true_eq] at hcond
      obtain ⟨w, hw⟩ := Option.isSome_iff_exists.mp (h a (by simp) hcond.1 hcond.2)
      rw [hw]
      refine ⟨w :: vs, ?_⟩
      show substArgs res rest >>= (fun vs => pure (w :: vs)) = Except.ok (w :: vs)
      rw [hvs, ebind_ok, epure_eq]
    · rw [if_neg hcond]
      refine ⟨Value.str a :: vs, ?_⟩
      show substArgs res rest >>= (fun vs => pure (Value.str a :: vs)) =
        Except.ok (Value.str a :: vs)
      rw [hvs, ebind_ok, epure_eq]

theorem infoGenerated_untouched (props : List Property) (res res' : Record) (k : String)
    (h : infoGenerated props res = Except.ok res')
    (hk : ∀ p ∈ props, p.is_generated = true → p.name ≠ k) :
    rlookup res' k = rlookup res k := by
  induction props generalizing res with
  | nil =>
    rw [infoGenerated, epure_eq] at h
    cases h
    rfl
  | cons p rest ih =>
    rw [infoGenerated] at h
    by_cases hg : p.is_generated
    · rw [if_pos hg] at h
      obtain ⟨vs, hvs, h2⟩ := ebind_eq_ok h
      rw [ih _ h2 fun q hq => hk q (by simp [hq])]
      exact rlookup_rinsert_ne res p.name _ k (hk p (by simp) (by simpa using hg))
    · rw [if_neg hg] at h
      exact ih res h fun q hq => hk q (by simp [hq])

theorem infoGenerated_keys_sub (props : List Property) (res res' : Record) (k : String)
    (h : infoGenerated props res = Except.ok res')
    (hs : (rlookup res' k).isSome) :
    (rlookup res k).isSome ∨ ∃ p ∈ props, p.name = k := by
  induction props generalizing res with
  | nil =>
    rw [infoGenerated, epure_eq] at h
    cases h
    exact Or.inl hs
  | cons p rest ih =>
    rw [infoGenerated] at h
    by_cases hg : p.is_generated
    · rw [if_pos hg] at h
      obtain ⟨vs, hvs, h2⟩ := ebind_eq_ok h
      rcases ih _ h2 with hres | ⟨q, hq, hn⟩
      · by_cases hk : p.name = k
        · exact Or.inr ⟨p, by simp, hk⟩
        · rw [rlookup_rinsert_ne res p.name _ k hk] at hres
          exact Or.inl hres
      · exact Or.inr ⟨q, by simp [hq], hn⟩
    · rw [if_neg hg] at h
      rcases ih res h with hres | ⟨q, hq, hn⟩
      · exact Or.inl hres
      · exact Or.inr ⟨q, by simp [hq], hn⟩

theorem infoGenerated_keysNodup (props : List Property) (res res' : Record)
    (h : infoGenerated props res = Except.ok res')
    (hnd : (res.map Prod.fst).Nodup) : (res'.map Prod.fst).Nodup := by
  induction props generalizing res with
  | nil =>
    rw [infoGenerated, epure_eq] at h
    cases h
    exact hnd
  | cons p rest ih =>
    rw [infoGenerated] at h
    by_cases hg : p.is_generated
    · rw [if_pos hg] at h
      obtain ⟨vs, hvs, h2⟩ := ebind_eq_ok h
      exact ih _ h2 (rinsert_keysNodup res p.name _ hnd)
    · rw [if_neg hg] at h
      exact ih res h hnd

/- Pass 2 runs to completion when every `@` argument of every generated
   property names either an already materialized stored value or a generated
   property evaluated earlier. -/
theorem infoGenerated_total (props : List Property) (res : Record)
    (storedNames seen : List String)
    (hstored : ∀ n ∈ storedNames, (rlookup res n).isSome)
    (hseen : ∀ n ∈ seen, (rlookup res n).isSome)
    (hok : genOrderOK storedNames props seen = true) :
    ∃ res', infoGenerated props res = Except.ok res' := by
  induction props generalizing res seen with
  | nil => exact ⟨res, rfl⟩
  | cons p rest ih =>
    rw [genOrderOK] at hok
    by_cases hg : p.is_generated
    · rw [if_pos hg, Bool.and_eq_true] at hok
      have hsub : ∀ a ∈ p.fn_args, a ≠ "" → a.data.headD ' ' = '@' →
          (rlookup res (String.mk a.data.tail)).isSome := by
        intro a ha hne hat
        have hall := hok.1
        rw [argsResolvable, List.all_eq_true] at hall
        have h2 := hall a ha
        rw [if_pos (by rw [Bool.and_eq_true]
                       exact ⟨decide_eq_true hne, beq_iff_eq.mpr hat⟩)] at h2
        have hmem : String.mk a.data.tail ∈ storedNames ++ seen := by
          simpa using h2
        rcases List.mem_append.mp hmem with hm | hm
        · exact hstored _ hm
        · exact hseen _ hm
      obtain ⟨vs, hvs⟩ := substArgs_ok res p.fn_args hsub
      obtain ⟨res'', h''⟩ := ih (rinsert res p.name (p.fn vs)) (seen ++ [p.name])
        (fun n hn => rlookup_rinsert_isSome res p.name _ n (hstored n hn))
        (fun n hn => by
          rcases List.mem_append.mp hn with hm | hm
          · exact rlookup_rinsert_isSome res p.name _ n (hseen n hm)
          · have : n = p.name := by simpa using hm
            subst this
            rw [rlookup_rinsert_self]
            rfl)
        hok.2
      refine ⟨res'', ?_⟩
      rw [infoGenerated, if_pos hg, hvs, ebind_ok, h'']
    · rw [if_neg hg] at hok
      obtain ⟨res'', h''⟩ := ih res seen hstored hseen hok
      refine ⟨res'', ?_⟩
      rw [infoGenerated, if_neg hg, h'']

/-
  Helper lemmas: the exposure-stripping step of the row evaluator.
-/
theorem stripHidden_cons_some (props : List Property) (full : Record) (k : String)
    (v : Value) (rest : List (String × Value)) (acc : Record) (p : Property)
    (hp : getPropByName props k = some p) :
    stripHidden props full ((k, v) :: rest) acc =
      if p.filter_by then
        match rlookup full p.name with
        | some w => stripHidden props full rest (rinsert acc k w)
        | none => Except.error (PyErr.key p.name)
      else stripHidden props full rest acc := by
  rw [stripHidden, hp]

theorem stripHidden_cons_none (props : List Property) (full : Record) (k : String)
    (v : Value) (rest : List (String × Value)) (acc : Record)
    (hp : getPropByName props k = none) :
    stripHidden props full ((k, v) :: rest) acc = Except.error PyErr.attr := by
  rw [stripHidden, hp]

theorem stripHidden_total (props : List Property) (full : Record)
    (pairs : List (String × Value)) (acc : Record)
    (hk : ∀ kv ∈ pairs, (getPropByName props kv.1).isSome ∧ (rlookup full kv.1).isSome) :
    ∃ fin, stripHidden props full pairs acc = Except.ok fin := by
  induction pairs generalizing acc with
  | nil => exact ⟨acc, rfl⟩
  | cons kv rest ih =>
    obtain ⟨k, v⟩ := kv
    obtain ⟨hps, hfs⟩ := hk (k, v) (by simp)
    obtain ⟨p, hp⟩ := Option.isSome_iff_exists.mp hps
    rw [stripHidden_cons_some props full k v rest acc p hp]
    by_cases hfb : p.filter_by
    · rw [if_pos hfb]
      have hname : p.name = k := getPropByName_name hp
      have hfull : (rlookup full p.name).isSome := by rw [hname]; exact hfs
      obtain ⟨w, hw⟩ := Option.isSome_iff_exists.mp hfull
      rw [hw]
      exact ih (rinsert acc k w) fun x hx => hk x (by simp [hx])
    · rw [if_neg hfb]
      exact ih acc fun x hx => hk x (by simp [hx])

theorem stripHidden_untouched (props : List Property) (full : Record)
    (pairs : List (String × Value)) (acc fin : Record) (k : String)
    (h : stripHidden props full pairs acc = Except.ok fin)
    (hk : ∀ kv ∈ pairs, kv.1 ≠ k) :
    rlookup fin k = rlookup acc k := by
  induction pairs generalizing acc with
  | nil =>
    rw [stripHidden, epure_eq] at h
    cases h
    rfl
  | cons kv rest ih =>
    obtain ⟨k0, v0⟩ := kv
    cases hp : getPropByName props k0 with
    | none =>
      rw [stripHidden_cons_none props full k0 v0 rest acc hp] at h
      exact Except.noConfusion h
    | some p =>
      rw [stripHidden_cons_some props full k0 v0 rest acc p hp] at h
      by_cases hfb : p.filter_by
      · rw [if_pos hfb] at h
        cases hw : rlookup full p.name with
        | none =>
          rw [hw] at h
          exact Except.noConfusion h
        | some w =>
          rw [hw] at h
          rw [ih _ h fun x hx => hk x (by simp [hx])]
          exact rlookup_rinsert_ne acc k0 w k (hk (k0, v0) (by simp))
      · rw [if_neg hfb] at h
        exact ih acc h fun x hx => hk x (by simp [hx])

theorem stripHidden_lookup (props : List Property) (full : Record)
    (pairs : List (String × Value)) (acc fin : Record) (k : String) (p : Property)
    (h : stripHidden props full pairs acc = Except.ok fin)
    (hnd : (pairs.map Prod.fst).Nodup)
    (hkm : k ∈ pairs.map Prod.fst)
    (hp : getPropByName props k = some p)
    (hfb : p.filter_by = true) :
    rlookup fin k = rlookup full k := by
  induction pairs generalizing acc with
  | nil => simp at hkm
  | cons kv rest ih =>
    obtain ⟨k0, v0⟩ := kv
    simp only [List.map_cons, List.nodup_cons] at hnd
    by_cases hke : k0 = k
    · subst hke
      rw [stripHidden_cons_some props full k0 v0 rest acc p hp, if_pos hfb] at h
      have hname : p.name = k0 := getPropByName_name hp
      cases hw : rlookup full p.name with
      | none =>
        rw [hw] at h
        exact Except.noConfusion h
      | some w =>
        rw [hw] at h
        have hrest : ∀ kv ∈ rest, kv.1 ≠ k0 := by
          intro x hx he
          exact hnd.1 (by rw [← he]; exact List.mem_map_of_mem Prod.fst hx)
        rw [stripHidden_untouched props full rest _ fin k0 h hrest]
        rw [rlookup_rinsert_self]
        rw [hname] at hw
        rw [hw]
    · have hkm' : k ∈ rest.map Prod.fst := by
        have : k = k0 ∨ k ∈ rest.map Prod.fst := by simpa using hkm
        rcases this with he | hm
        · exact absurd he.symm hke
        · exact hm
      cases hp0 : getPropByName props k0 with
      | none =>
        rw [stripHidden_cons_none props full k0 v0 rest acc hp0] at h
        exact Except.noConfusion h
      | some p0 =>
        rw [stripHidden_cons_some props full k0 v0 rest acc p0 hp0] at h
        by_cases hfb0 : p0.filter_by
        · rw [if_pos hfb0] at h
          cases hw : rlookup full p0.name with
          | none =>
            rw [hw] at h
            exact Except.noConfusion h
          | some w =>
            rw [hw] at h
            exact ih _ h hnd.2 hkm'
        · rw [if_neg hfb0] at h
          exact ih acc h hnd.2 hkm'

/- The anonymized primary key in the output of the row evaluator: with the
   primary-key property first (as the manager constructor places it), the
   output maps its name to the sha1 digest of token, `###` and the raw value. -/
theorem info_pk_value (sha1 : String → String) (pm : PropertyManager)
    (row : List Value) (pk : Property) (rest : List Property) (raw : Value) (r : Record)
    (hp : pm.properties = pk :: rest)
    (hg : pk.is_generated = false)
    (hpk : pk.is_pk = true)
    (hfb : pk.filter_by = true)
    (hnd : (pm.properties.map Property.name).Nodup)
    (hr0 : row.get? 0 = some raw)
    (hr : info sha1 pm row = Except.ok r) :
    rlookup r pk.name = some (Value.str (sha1 (pm.token ++ "###" ++ pyStr raw))) := by
  rw [info] at hr
  obtain ⟨r0pair, h0, h'⟩ := ebind_eq_ok hr
  obtain ⟨r1, h1, h2⟩ := ebind_eq_ok h'
  obtain ⟨r0, i0⟩ := r0pair
  rw [hp] at h0 h1 hnd
  simp only [List.map_cons, List.nodup_cons] at hnd
  have hrestname : ∀ q ∈ rest, q.name ≠ pk.name := by
    intro q hq he
    exact hnd.1 (by rw [← he]; exact List.mem_map_of_mem Property.name hq)
  -- pass 1: the primary key is hashed into the record, and the remaining
  -- stored properties do not overwrite it
  rw [infoStored, if_neg (by simp [hg]), hr0] at h0
  have h0' : infoStored sha1 pm.token row rest
      (rinsert [] pk.name
        (if pk.is_pk then Value.str (sha1 (pm.token ++ "###" ++ pyStr raw)) else raw))
      (0 + 1) = Except.ok (r0, i0) := h0
  rw [if_pos hpk] at h0'
  have hv0 : rlookup r0 pk.name =
      some (Value.str (sha1 (pm.token ++ "###" ++ pyStr raw))) := by
    rw [infoStored_untouched sha1 pm.token row rest _ _ r0 i0 pk.name h0'
      (fun q hq _ => hrestname q hq)]
    rw [rlookup_rinsert_self]
  -- pass 2: no generated property shares the primary key's name
  have hv1 : rlookup r1 pk.name =
      some (Value.str (sha1 (pm.token ++ "###" ++ pyStr raw))) := by
    rw [infoGenerated_untouched (pk :: rest) r0 r1 pk.name h1 ?_, hv0]
    intro q hq hqg
    rcases List.mem_cons.mp hq with he | hm
    · subst he
      rw [hg] at hqg
      cases hqg
    · exact hrestname q hm
  -- the stripping step keeps the exposed primary key
  have hr1nd : (r1.map Prod.fst).Nodup := by
    refine infoGenerated_keysNodup (pk :: rest) r0 r1 h1 ?_
    exact infoStored_keysNodup sha1 pm.token row rest _ _ r0 i0 h0
      (rinsert_keysNodup [] pk.name _ (by simp))
  have hlook : getPropByName (pk :: rest) pk.name = some pk :=
    List.find?_cons_of_pos rest (by simp)
  rw [hp] at h2
  rw [stripHidden_lookup (pk :: rest) r1 r1 [] r pk.name pk h2 hr1nd
    (mem_keys_of_rlookup_isSome r1 pk.name (by rw [hv1]; rfl)) hlook hfb]
  exact hv1

/-- Claim C3, amended: `get_dependencies` performs no cycle detection at all;
on a generated property that (directly) references itself it recurses
unboundedly — in the fuel model, every recursion budget is exhausted — and no
cyclic-dependency error is ever raised (the code has no such error class). -/
theorem C3_theorem (pm : PropertyManager) (p : Property) (rest : List String)
    (hgen : p.is_generated = true)
    (hargs : p.fn_args = ("@" ++ p.name) :: rest)
    (hlook : get_property_by_name pm p.name = some p) :
    ∀ fuel, get_dependencies pm fuel p = Except.error PyErr.fuel :=
  getDeps_self_loop pm p rest hgen hargs hlook

/-- Witness for C3: the self-referential property `cyc` exhausts the concrete
budget 7. -/
theorem C3_witness : get_dependencies cycPM 7 cycProp = Except.error PyErr.fuel :=
  C3_theorem cycPM cycProp [] rfl rfl rfl 7

/-- Counterexample to C3 as stated: dependency resolution of the cyclic
property set does not terminate (no recursion budget lets it return), and in
particular never fails fast with a cyclic-dependency error. -/
theorem C3_counterexample : ¬ DepsTerminate cycPM cycProp := by
  rintro ⟨n, hn⟩
  exact hn (getDeps_self_loop cycPM cycProp [] rfl rfl rfl n)

/-- Claim C10: on the filter expression `age=` with an empty operand, the
quote-stripping step of `Property.matches` indexes the empty operand string
and raises an uncontrolled IndexError, not the documented unknown-operator or
value error. -/
theorem C10_theorem :
    Property.matches egAge (Value.int 5) "age=" = Except.error PyErr.index := rfl

/-- Counterexample to C5 as stated: a manager whose generated property
references the undeclared name `missing` is constructed without any error. -/
theorem C5_counterexample : c5built.isOk = true := rfl

/-- Claim C5, amended: construction never validates `@` references — the
manager with an undeclared `@missing` reference is built successfully — and
the defect surfaces only at row-evaluation time, when argument substitution
in `info` raises `PropertyNotFoundException` for the missing name. -/
theorem C5_theorem :
    c5built.isOk = true ∧
    ∀ sha1 : String → String,
      c5built.toOption.map (fun pm => info sha1 pm [Value.str "u"]) =
        some (Except.error (PyErr.propertyNotFound "missing")) :=
  ⟨rfl, fun _ => rfl⟩

/-- Counterexample to C2 as stated: an acyclic property set declared out of
dependency order (`b` reads `@c`, but `c` is declared after `b`) makes the
row evaluator fail with `PropertyNotFoundException` — the evaluation order is
declaration order, not a topological order. -/
theorem C2_counterexample :
    info (fun s => s) egPM2 [Value.str "u"] =
      Except.error (PyErr.propertyNotFound "c") := rfl

/-- Counterexample to C1 as stated: generated `a` (no dependencies) is carried
forward first, so generated `b` (depending on `@a`) compares the old record
against the already-merged record and is also carried forward — even though
`a` differs between the old and the new record, where the claim demands the
new value 20 for `b`. -/
theorem C1_counterexample :
    combine maskPM 3 [c1old] [c1new] = Except.ok [c1merged] ∧
    rlookup c1merged "b" = some (Value.int 10) ∧
    rlookup c1new "b" = some (Value.int 20) := ⟨rfl, rfl, rfl⟩

/-- Counterexample to C9 as stated: a generated property whose argument list
holds an empty token (no `@` reference anywhere) makes `get_dependencies`
index the empty string, so `combine` raises IndexError instead of carrying
the old value forward. -/
theorem C9_counterexample :
    combine egPM9 3 [c9old] [c9new] = Except.error PyErr.index := rfl

/-- Counterexample to C6 as stated: for the operator `!=` the name extraction
of `filter()` splits only on `=`, `<`, `>`, yielding the non-existent
property name `age!`, and the call crashes (attribute access on None) instead
of routing the predicate. -/
theorem C6_counterexample :
    filterQuery egPM ["age!=30"] = Except.error PyErr.attr := rfl

set_option maxRecDepth 40000 in
/-- Counterexample to C7 as stated: the query built by `get(pk)` contains no
GROUP BY clause at all. -/
theorem C7_counterexample :
    getQuery egPM "5" =
      "SELECT users.id AS id,users.age AS age,COUNT(orders.total) AS total__COUNT FROM users WHERE users.id=5" ∧
    countOcc " GROUP BY ".data (getQuery egPM "5").data = 0 := ⟨rfl, rfl⟩

/-
  Helper lemmas: filter parsing and routing.
-/
theorem ebind_pure {ε α : Type} (x : Except ε α) : x >>= pure = x := by
  cases x <;> rfl

theorem takeUntil_append_stop (bad : List Char) (l1 : List Char) (c : Char)
    (l2 : List Char) (h1 : ∀ x ∈ l1, bad.contains x = false)
    (hc : bad.contains c = true) :
    takeUntil bad (l1 ++ c :: l2) = l1 := by
  induction l1 with
  | nil => rw [List.nil_append, takeUntil, if_pos hc]
  | cons a as ih =>
    rw [List.cons_append, takeUntil, h1 a (by simp)]
    simp [ih fun x hx => h1 x (by simp [hx])]

/- The name a filter expression `name ++ op ++ v` is split at: everything
   before the operator, provided the name holds none of the split set's
   characters and the operator starts with one. -/
theorem reSplitHead_extract (bad : List Char) (nm op v : String)
    (hnm : ∀ c ∈ nm.data, bad.contains c = false)
    (hop : ∃ c restc, op.data = c :: restc ∧ bad.contains c = true) :
    reSplitHead bad (nm ++ op ++ v) = nm := by
  obtain ⟨c, restc, hopd, hcb⟩ := hop
  rw [reSplitHead]
  have hd : (nm ++ op ++ v).data = nm.data ++ (c :: (restc ++ v.data)) := by
    rw [String.data_append, String.data_append, hopd]
    simp
  rw [hd, takeUntil_append_stop bad nm.data c _ hnm hcb]

theorem classifyLoop_cons_some (pm : PropertyManager) (f : String)
    (rest : List String) (acc : List String × List String × List String)
    (prop : Property)
    (hlook : get_property_by_name pm (reSplitHead ['=', '<', '>'] f) = some prop) :
    classifyLoop pm (f :: rest) acc =
      if !prop.filter_by then Except.error (PyErr.propertyNotFound prop.name)
      else if prop.is_generated then
        classifyLoop pm rest (acc.1 ++ [f], acc.2.1, acc.2.2)
      else if prop.aggregate = none then
        classifyLoop pm rest (acc.1, acc.2.1 ++ [f], acc.2.2)
      else classifyLoop pm rest (acc.1, acc.2.1, acc.2.2 ++ [f]) := by
  rw [classifyLoop, hlook]

theorem fbgLoop_cons_some (pm : PropertyManager) (g : String) (rest : List String)
    (results : List Record) (prop : Property)
    (hlook : get_property_by_name pm (reSplitHead ['=', '<', '>'] g) = some prop) :
    fbgLoop pm (g :: rest) results =
      if prop.is_generated then
        (filterE results fun r =>
          match rlookup r prop.name with
          | some v => prop.matches v g
          | none => Except.error (PyErr.key prop.name)) >>= fbgLoop pm rest
      else fbgLoop pm rest results := by
  rw [fbgLoop, hlook]

theorem filterPre_eq (pm : PropertyManager) (fs : List String)
    (c : List String × List String × List String)
    (hc : classify pm fs = Except.ok c) :
    filterPre pm fs =
      if c.2.1 ≠ [] then queryStr pm ++ ("WHERE " ++ String.intercalate " AND " c.2.1)
      else queryStr pm := by
  rw [filterPre, hc]

theorem filterSuf_eq (pm : PropertyManager) (fs : List String)
    (c : List String × List String × List String)
    (hc : classify pm fs = Except.ok c) :
    filterSuf pm fs =
      if c.2.2 ≠ [] then " HAVING " ++ String.intercalate " AND " c.2.2
      else "" := by
  rw [filterSuf, hc]

/-- Claim C6, amended: for an operator in `{=, >, >=, <, <=}` the filter
expression `name op value` is split at the first `=`, `<` or `>`, the part
before it is the property name, and the predicate is routed by the property's
kind: a non-aggregated stored property's predicate into the WHERE clause, an
aggregated stored property's predicate into HAVING after GROUP BY, and a
generated property's predicate is deferred and applied by `matches` over the
materialized records, never placed in the query.  (The operator `!=` is not
usable: its name extraction is broken, see the counterexample.) -/
theorem C6_theorem (pm : PropertyManager) (nm op v : String) (prop : Property)
    (hop : op ∈ ["=", ">", ">=", "<", "<="])
    (hnm : ∀ c ∈ nm.data, (['=', '<', '>'] : List Char).contains c = false)
    (hlook : get_property_by_name pm nm = some prop)
    (hfb : prop.filter_by = true) :
    (prop.is_generated = true →
      filterQuery pm [nm ++ op ++ v] =
        Except.ok (queryStr pm ++ (" GROUP BY " ++ pm.user_pk.full), [nm ++ op ++ v])
      ∧ ∀ recs : List Record,
          filter_by_generated pm recs [nm ++ op ++ v] =
            filterE recs fun r =>
              match rlookup r prop.name with
              | some val => prop.matches val (nm ++ op ++ v)
              | none => Except.error (PyErr.key prop.name))
    ∧ (prop.is_generated = false → prop.aggregate = none →
      filterQuery pm [nm ++ op ++ v] =
        Except.ok ((queryStr pm ++ ("WHERE " ++ (nm ++ op ++ v))) ++
          (" GROUP BY " ++ pm.user_pk.full), []))
    ∧ (∀ ag, prop.is_generated = false → prop.aggregate = some ag →
      filterQuery pm [nm ++ op ++ v] =
        Except.ok ((queryStr pm ++ (" GROUP BY " ++ pm.user_pk.full)) ++
          (" HAVING " ++ (nm ++ op ++ v)), [])) := by
  have hsplit : reSplitHead ['=', '<', '>'] (nm ++ op ++ v) = nm := by
    refine reSplitHead_extract _ nm op v hnm ?_
    have hop' : op = "=" ∨ op = ">" ∨ op = ">=" ∨ op = "<" ∨ op = "<=" := by
      simpa using hop
    rcases hop' with rfl | rfl | rfl | rfl | rfl
    · exact ⟨'=', [], rfl, rfl⟩
    · exact ⟨'>', [], rfl, rfl⟩
    · exact ⟨'>', ['='], rfl, rfl⟩
    · exact ⟨'<', [], rfl, rfl⟩
    · exact ⟨'<', ['='], rfl, rfl⟩
  have hlook2 : get_property_by_name pm
      (reSplitHead ['=', '<', '>'] (nm ++ op ++ v)) = some prop := by
    rw [hsplit]
    exact hlook
  refine ⟨?_, ?_, ?_⟩
  · intro hgen
    have hcl : classify pm [nm ++ op ++ v] =
        Except.ok ([nm ++ op ++ v], [], []) := by
      rw [classify, classifyLoop_cons_some pm _ [] ([], [], []) prop hlook2,
        if_neg (by simp [hfb]), if_pos hgen, classifyLoop]
      rfl
    constructor
    · rw [filterQuery, hcl, ebind_ok]
      rfl
    · intro recs
      rw [filter_by_generated, fbgLoop_cons_some pm _ [] recs prop hlook2,
        if_pos hgen]
      cases hfe : filterE recs fun r =>
          match rlookup r prop.name with
          | some val => prop.matches val (nm ++ op ++ v)
          | none => Except.error (PyErr.key prop.name) with
      | ok l =>
        rw [ebind_ok, fbgLoop]
        rfl
      | error e => rw [ebind_err]
  · intro hgenf haggr
    have hcl : classify pm [nm ++ op ++ v] =
        Except.ok ([], [nm ++ op ++ v], []) := by
      rw [classify, classifyLoop_cons_some pm _ [] ([], [], []) prop hlook2,
        if_neg (by simp [hfb]), if_neg (by simp [hgenf]), if_pos haggr,
        classifyLoop]
      rfl
    rw [filterQuery, hcl, ebind_ok]
    rfl
  · intro ag hgenf haggr
    have hcl : classify pm [nm ++ op ++ v] =
        Except.ok ([], [], [nm ++ op ++ v]) := by
      rw [classify, classifyLoop_cons_some pm _ [] ([], [], []) prop hlook2,
        if_neg (by simp [hfb]), if_neg (by simp [hgenf]),
        if_neg (by simp [haggr]), classifyLoop]
      rfl
    rw [filterQuery, hcl, ebind_ok]
    rfl

/-- Witness for C6: the filter `gen=7` on the generated property `gen` is
kept out of the query and deferred to the matcher. -/
theorem C6_witness :
    filterQuery egPM ["gen" ++ "=" ++ "7"] =
      Except.ok (queryStr egPM ++ (" GROUP BY " ++ egPM.user_pk.full),
        ["gen" ++ "=" ++ "7"])
    ∧ filter_by_generated egPM [] ["gen" ++ "=" ++ "7"] =
        filterE [] fun r =>
          match rlookup r egGen.name with
          | some val => egGen.matches val ("gen" ++ "=" ++ "7")
          | none => Except.error (PyErr.key egGen.name) :=
  ⟨((C6_theorem egPM "gen" "=" "7" egGen (by decide) (by decide) rfl rfl).1 rfl).1,
   ((C6_theorem egPM "gen" "=" "7" egGen (by decide) (by decide) rfl rfl).1 rfl).2 []⟩

set_option maxRecDepth 40000 in
/-- Claim C7, amended: the queries built by `all()` and by `filter()` always
contain a GROUP BY clause keyed on the root primary-key column; the query
built by `get(pk)` contains no GROUP BY clause. -/
theorem C7_theorem :
    (∀ pm : PropertyManager,
      allQuery pm = queryStr pm ++ (" GROUP BY " ++ pm.user_pk.full))
    ∧ (∀ (pm : PropertyManager) (fs : List String) (q : String) (gen : List String),
        filterQuery pm fs = Except.ok (q, gen) →
        q = filterPre pm fs ++ ((" GROUP BY " ++ pm.user_pk.full) ++ filterSuf pm fs))
    ∧ countOcc " GROUP BY ".data (getQuery egPM "5").data = 0 := by
  refine ⟨fun pm => rfl, ?_, by decide⟩
  intro pm fs q gen h
  rw [filterQuery] at h
  obtain ⟨c, hc, h2⟩ := ebind_eq_ok h
  have h2' : Except.ok
      ((if c.2.2 ≠ [] then
          ((if c.2.1 ≠ [] then
              queryStr pm ++ ("WHERE " ++ String.intercalate " AND " c.2.1)
            else queryStr pm) ++ (" GROUP BY " ++ pm.user_pk.full)) ++
            (" HAVING " ++ String.intercalate " AND " c.2.2)
        else
          (if c.2.1 ≠ [] then
              queryStr pm ++ ("WHERE " ++ String.intercalate " AND " c.2.1)
            else queryStr pm) ++ (" GROUP BY " ++ pm.user_pk.full)), c.1) =
      Except.ok (q, gen) := h2
  have hpair := Except.ok.inj h2'
  injection hpair with hq hgen2
  rw [← hq, filterPre_eq pm fs c hc, filterSuf_eq pm fs c hc]
  by_cases hagg : c.2.2 = []
  · have hne : ¬(c.2.2 ≠ []) := by simp [hagg]
    rw [if_neg hne, if_neg hne, String.append_empty]
  · rw [if_pos hagg, if_pos hagg]
    exact String.append_assoc _ _ _

set_option maxRecDepth 40000 in
/-- Witness for C7: the filter query for `age=5` decomposes around its
GROUP BY clause. -/
theorem C7_witness :
    "SELECT users.id AS id,users.age AS age,COUNT(orders.total) AS total__COUNT FROM users WHERE age=5 GROUP BY users.id" =
      filterPre egPM ["age=5"] ++
        ((" GROUP BY " ++ egPM.user_pk.full) ++ filterSuf egPM ["age=5"]) :=
  C7_theorem.2.1 egPM ["age=5"]
    "SELECT users.id AS id,users.age AS age,COUNT(orders.total) AS total__COUNT FROM users WHERE age=5 GROUP BY users.id"
    [] rfl

/-- Claim C8, amended: the query planner emits one LEFT OUTER JOIN per stored
property that declares a foreign key, in declaration order, with no
deduplication: two properties reaching through foreign keys to the same table
contribute one join each. -/
theorem C8_theorem (pm : PropertyManager) (pk p1 p2 fk1 fk2 : Property)
    (hprops : pm.properties = [pk, p1, p2])
    (hpkg : pk.is_generated = false) (hpkfk : pk.user_fk = none)
    (h1g : p1.is_generated = false) (h1fk : p1.user_fk = some fk1)
    (h2g : p2.is_generated = false) (h2fk : p2.user_fk = some fk2) :
    joinStr pm =
      ("LEFT OUTER JOIN " ++ p1.table ++ " ON " ++ fk1.full ++ "=" ++
        pm.user_pk.full ++ " ") ++
      ("LEFT OUTER JOIN " ++ p2.table ++ " ON " ++ fk2.full ++ "=" ++
        pm.user_pk.full ++ " ") := by
  rw [joinStr, hprops]
  simp [List.filter, hpkg, h1g, h2g, joinFor, hpkfk, h1fk, h2fk, String.join,
    String.empty_append, String.append_assoc]

set_option maxRecDepth 40000 in
/-- Witness for C8: the two properties sharing foreign-key table `t2` emit
two joins. -/
theorem C8_witness :
    joinStr egPM8 =
      ("LEFT OUTER JOIN " ++ p81.table ++ " ON " ++ fk8.full ++ "=" ++
        egPM8.user_pk.full ++ " ") ++
      ("LEFT OUTER JOIN " ++ p82.table ++ " ON " ++ fk8.full ++ "=" ++
        egPM8.user_pk.full ++ " ") :=
  C8_theorem egPM8 egPK p81 p82 fk8 fk8 rfl rfl rfl rfl rfl rfl rfl

/-- Claim C1, amended: a new record with no matching old record passes through
unchanged; and for each matched record and each generated property whose
dependency set holds only stored properties, the merged value equals the old
record's value when every dependency is present in both records and equal
between the old and the (original) new record, and equals the new record's
value otherwise.  (When the dependency set holds generated properties, the
code compares against the progressively merged record instead, see the
counterexample.) -/
theorem C1_theorem (pm : PropertyManager) (fuel : Nat) (old_list : List Record)
    (user : Record) :
    (findOld (get_primary_key pm) user old_list = Except.ok none →
      combineOne pm fuel (get_primary_key pm) old_list user = Except.ok user)
    ∧ (∀ (old_user res : Record) (l1 : List Property) (prop : Property)
        (l2 : List Property) (deps : List Property),
        (pm.properties.map Property.name).Nodup →
        pm.properties = l1 ++ prop :: l2 →
        prop.is_generated = true →
        get_dependencies pm fuel prop = Except.ok deps →
        (∀ d ∈ deps, d.is_generated = false) →
        findOld (get_primary_key pm) user old_list = Except.ok (some old_user) →
        combineOne pm fuel (get_primary_key pm) old_list user = Except.ok res →
        rlookup res prop.name =
          if dirtyCheck deps old_user user then rlookup user prop.name
          else rlookup old_user prop.name) := by
  constructor
  · intro h
    rw [combineOne, h]
    rfl
  · intro old_user res l1 prop l2 deps hnd hprops hgen hdeps hstored hfound hrun
    rw [combineOne, hfound] at hrun
    have hrun' : combineProps pm fuel old_user pm.properties user = Except.ok res :=
      hrun
    rw [hprops] at hrun'
    refine combineProps_core pm fuel old_user l1 prop l2 user res deps ?_ ?_ hgen
      hdeps hstored hrun'
    · rw [← hprops]
      exact hnd
    · intro d hd
      rw [← hprops]
      exact getDeps_mem pm fuel prop deps hdeps d hd

/-- Witness for C1: with an empty old list the new record passes through; with
a matched old record the generated `gen` (depending only on the stored,
unchanged `age`) is carried over from the old record. -/
theorem C1_witness :
    (combineOne egPM 2 (get_primary_key egPM) [] c1wnew = Except.ok c1wnew)
    ∧ rlookup c1wres egGen.name =
        (if dirtyCheck [egAge] c1wold c1wnew then rlookup c1wnew egGen.name
         else rlookup c1wold egGen.name) :=
  ⟨(C1_theorem egPM 2 [] c1wnew).1 rfl,
   (C1_theorem egPM 2 [c1wold] c1wnew).2 c1wold c1wres [egPK, egAge, egAgg] egGen []
     [egAge] (by decide) rfl rfl rfl
     (by intro d hd
         have hde : d = egAge := by simpa using hd
         subst hde
         rfl)
     rfl rfl⟩

/-- Claim C9, amended: a generated property whose arguments are all non-empty
and carry no `@` reference has an empty dependency set, is never dirty, and —
whenever combine succeeds on a new record matched by primary key — its old
value is carried forward regardless of every other change in the record. -/
theorem C9_theorem (pm : PropertyManager) (fuel : Nat) (old_list : List Record)
    (user res old_user : Record) (l1 : List Property) (prop : Property)
    (l2 : List Property)
    (hnd : (pm.properties.map Property.name).Nodup)
    (hprops : pm.properties = l1 ++ prop :: l2)
    (hgen : prop.is_generated = true)
    (hargs : ∀ a ∈ prop.fn_args, a ≠ "" ∧ a.data.headD ' ' ≠ '@')
    (hfuel : 0 < fuel)
    (hfound : findOld (get_primary_key pm) user old_list = Except.ok (some old_user))
    (hrun : combineOne pm fuel (get_primary_key pm) old_list user = Except.ok res) :
    rlookup res prop.name = rlookup old_user prop.name := by
  cases fuel with
  | zero => exact absurd hfuel (by simp)
  | succ n =>
    have hdeps : get_dependencies pm (n + 1) prop = Except.ok [] :=
      getDeps_no_at pm n prop hgen hargs
    rw [combineOne, hfound] at hrun
    have hrun' : combineProps pm (n + 1) old_user pm.properties user = Except.ok res :=
      hrun
    rw [hprops] at hrun'
    have hcore := combineProps_core pm (n + 1) old_user l1 prop l2 user res []
      (by rw [← hprops]; exact hnd) (by intro d hd; simp at hd) hgen hdeps
      (by intro d hd; simp at hd) hrun'
    simpa [dirtyCheck] using hcore

/-- Claim C2, amended: the row evaluator computes generated properties in
declaration order, with no topological sort; when every `@` argument of every
generated property names either a stored property or a generated property
declared earlier (`evalOrderOK`), and the stored pass succeeds, evaluation
completes — in particular no `@` substitution finds its referenced value
absent.  (An acyclic set declared out of order fails, see the
counterexample.) -/
theorem C2_theorem (sha1 : String → String) (pm : PropertyManager) (row : List Value)
    (r0 : Record) (i0 : Nat)
    (h0 : infoStored sha1 pm.token row pm.properties [] 0 = Except.ok (r0, i0))
    (hok : evalOrderOK pm.properties = true) :
    (info sha1 pm row).isOk = true := by
  rw [evalOrderOK] at hok
  have hstored : ∀ n ∈ (pm.properties.filter (fun p => !p.is_generated)).map
      Property.name, (rlookup r0 n).isSome := by
    intro n hn
    obtain ⟨p, hpf, hpn⟩ := List.mem_map.mp hn
    obtain ⟨hpm, hpg⟩ := List.mem_filter.mp hpf
    rw [← hpn]
    exact infoStored_contains sha1 pm.token row pm.properties [] 0 r0 i0 h0 p hpm
      (by simpa using hpg)
  obtain ⟨r1, h1⟩ := infoGenerated_total pm.properties r0
    ((pm.properties.filter (fun p => !p.is_generated)).map Property.name) []
    hstored (by intro n hn; simp at hn) hok
  have hkeys : ∀ kv ∈ r1, (getPropByName pm.properties kv.1).isSome ∧
      (rlookup r1 kv.1).isSome := by
    intro kv hkv
    have hs1 : (rlookup r1 kv.1).isSome := rlookup_isSome_of_mem r1 kv.1 kv.2
      (by rw [← Prod.mk.eta (p := kv)] at hkv; exact hkv)
    refine ⟨?_, hs1⟩
    have hname : ∃ p ∈ pm.properties, p.name = kv.1 := by
      rcases infoGenerated_keys_sub pm.properties r0 r1 kv.1 h1 hs1 with hs0 | he
      · rcases infoStored_keys_sub sha1 pm.token row pm.properties [] 0 r0 i0 kv.1
          h0 hs0 with hsn | he0
        · simp [rlookup] at hsn
        · exact he0
      · exact he
    exact getPropByName_isSome hname
  obtain ⟨fin, hfin⟩ := stripHidden_total pm.properties r1 r1 [] hkeys
  have : info sha1 pm row = Except.ok fin := by
    rw [info, h0, ebind_ok]
    show infoGenerated pm.properties r0 >>=
      (fun r1 => stripHidden pm.properties r1 r1 []) = Except.ok fin
    rw [h1, ebind_ok]
    exact hfin
  rw [this]
  rfl

/-- Witness for C2: the same two generated properties as in the
counterexample, declared in dependency order, evaluate successfully. -/
theorem C2_witness : (info (fun s => s) egPM2w [Value.str "u"]).isOk = true :=
  C2_theorem (fun s => s) egPM2w [Value.str "u"] [("id", Value.str "t###u")] 1
    rfl (by decide)

/-- Claim C4: the row evaluator replaces the raw primary key with the sha1
digest of the run token and the raw value: the primary-key field of the
output equals that digest (never the raw value, unless the digest collides
with it), two runs with equal tokens and equal raw keys agree on it, and —
for an injective digest function — two runs with different tokens on the same
raw key differ on it. -/
theorem C4_theorem (sha1 : String → String) (pm pm2 : PropertyManager)
    (pk : Property) (rest : List Property) (row row2 : List Value)
    (raw raw2 : Value) (r r2 : Record)
    (hp : pm.properties = pk :: rest) (hp2 : pm2.properties = pk :: rest)
    (hg : pk.is_generated = false) (hpk : pk.is_pk = true) (hfb : pk.filter_by = true)
    (hnd : ((pk :: rest).map Property.name).Nodup)
    (hr0 : row.get? 0 = some raw) (hr02 : row2.get? 0 = some raw2)
    (hr : info sha1 pm row = Except.ok r) (hr2 : info sha1 pm2 row2 = Except.ok r2) :
    rlookup r pk.name = some (Value.str (sha1 (pm.token ++ "###" ++ pyStr raw)))
    ∧ (pm.token = pm2.token → raw = raw2 → rlookup r pk.name = rlookup r2 pk.name)
    ∧ (Function.Injective sha1 → raw = raw2 → pm.token ≠ pm2.token →
        rlookup r pk.name ≠ rlookup r2 pk.name)
    ∧ (Value.str (sha1 (pm.token ++ "###" ++ pyStr raw)) ≠ raw →
        rlookup r pk.name ≠ some raw) := by
  have e1 := info_pk_value sha1 pm row pk rest raw r hp hg hpk hfb
    (by rw [hp]; exact hnd) hr0 hr
  have e2 := info_pk_value sha1 pm2 row2 pk rest raw2 r2 hp2 hg hpk hfb
    (by rw [hp2]; exact hnd) hr02 hr2
  refine ⟨e1, ?_, ?_, ?_⟩
  · intro ht hraw
    rw [e1, e2, ht, hraw]
  · intro hinj hraw hne
    rw [e1, e2, hraw]
    intro hcontra
    have h3 : sha1 (pm.token ++ "###" ++ pyStr raw2) =
        sha1 (pm2.token ++ "###" ++ pyStr raw2) := by
      have := Option.some.inj hcontra
      exact Value.str.inj this
    have h4 := hinj h3
    have h5 : pm.token ++ "###" = pm2.token ++ "###" :=
      str_append_right_cancel h4
    exact hne (str_append_right_cancel h5)
  · intro hne hcontra
    rw [e1] at hcontra
    exact hne (Option.some.inj hcontra)

/-- Witness for C4: two single-property managers differing only in token. -/
theorem C4_witness :
    rlookup c4r1 egPK.name =
      some (Value.str ((fun s => s) (egPM4a.token ++ "###" ++ pyStr (Value.str "u1"))))
    ∧ (egPM4a.token = egPM4b.token → Value.str "u1" = Value.str "u1" →
        rlookup c4r1 egPK.name = rlookup c4r2 egPK.name)
    ∧ (Function.Injective (fun s : String => s) →
        Value.str "u1" = Value.str "u1" → egPM4a.token ≠ egPM4b.token →
        rlookup c4r1 egPK.name ≠ rlookup c4r2 egPK.name)
    ∧ (Value.str ((fun s => s) (egPM4a.token ++ "###" ++ pyStr (Value.str "u1"))) ≠
        Value.str "u1" →
        rlookup c4r1 egPK.name ≠ some (Value.str "u1")) :=
  C4_theorem (fun s => s) egPM4a egPM4b egPK [] [Value.str "u1"] [Value.str "u1"]
    (Value.str "u1") (Value.str "u1") c4r1 c4r2 rfl rfl rfl rfl rfl (by decide)
    rfl rfl rfl rfl

/-- Witness for C9: the generated `h` with the literal argument list `[x]` is
carried over from the old record although its stored neighbour changed. -/
theorem C9_witness : rlookup c9wres genLit.name = rlookup c9wold genLit.name :=
  C9_theorem egPM9w 1 [c9wold] c9wnew c9wres c9wold [egPK] genLit []
    (by decide) rfl rfl (by decide) (by decide) rfl rfl

set_option maxRecDepth 40000 in
/-- Counterexample to C8 as stated: two stored properties joined through the
same table `t2` emit two identical LEFT OUTER JOIN clauses — joins are not
deduplicated. -/
theorem C8_counterexample :
    queryStr egPM8 =
      "SELECT users.id AS id,t2.a AS a,t2.b AS b FROM users LEFT OUTER JOIN t2 ON t2.uid=users.id LEFT OUTER JOIN t2 ON t2.uid=users.id " ∧
    countOcc "LEFT OUTER JOIN t2".data (queryStr egPM8).data = 2 := ⟨rfl, rfl⟩

end Anon
